import Mathlib

/-!
# Verification of the phishing scoring and explanation engine

This development embeds the core of the `p2-6-phishing` backend
(`backend/core/*.py`) into Lean 4 and proves or refutes the specified
properties of its heuristics.

Modelling conventions:
* A Python `str` is modelled as `List Char` (`Str` below).
* Python `None` / optional strings are modelled with `Option`.
* Machine behaviour that can raise (the scoring aggregator) is modelled
  with `Except String`.
* Python's Unicode tables (`str.lower`, `str.isdigit`, `unicodedata`) are
  modelled on the code-point repertoire actually exercised by this
  code base (ASCII plus the explicitly listed confusable/zero-width code
  points); outside that repertoire the tables are modelled as the
  identity.  Comments on the individual definitions record the scope.
-/

set_option maxHeartbeats 1000000

/-- Python strings are modelled as lists of characters. -/
abbrev Str := List Char

/-- Model of Python `str.lower` / `str.casefold`, restricted to ASCII
(`A`-`Z` map to `a`-`z`; other characters are fixed).  All reference data
in this code base (domain lists, keyword lists) is ASCII. -/
def pyLower (s : Str) : Str := s.map Char.toLower

/-- Model of Python `str.strip()` (strip leading/trailing whitespace). -/
def pyStrip (s : Str) : Str :=
  ((s.dropWhile Char.isWhitespace).reverse.dropWhile Char.isWhitespace).reverse

/-- Model of Python `str.strip('.')`. -/
def stripDots (s : Str) : Str :=
  ((s.dropWhile (· = '.')).reverse.dropWhile (· = '.')).reverse

/-- Model of Python `str.isdigit` restricted to ASCII digits; on the empty
string it is `False`, as in Python. -/
def pyIsdigit (s : Str) : Bool := s ≠ [] && s.all Char.isDigit

/-- `'.'.join xs` -/
def joinDots (ls : List Str) : Str := List.intercalate ['.'] ls

/-- `sep.join xs` for a one-character separator. -/
def joinWith (c : Char) (ls : List Str) : Str := List.intercalate [c] ls

/-- First index at which `n` occurs as a contiguous substring of `h`
(Python `str.find`, and `str.index` modulo the exception). -/
def indexOfSub (h n : Str) : Option Nat :=
  if n.isPrefixOf h then some 0
  else
    match h with
    | [] => none
    | _ :: t => (indexOfSub t n).map (· + 1)

/-- Python `needle in haystack` for strings (contiguous substring). -/
def strContains (h n : Str) : Bool := (indexOfSub h n).isSome

/- ============================================================
   backend/core/helpers.py
   ============================================================ -/

/-- `_PUBLIC_SUFFIX_3` from `backend/core/helpers.py`. -/
def _PUBLIC_SUFFIX_3 : List Str :=
  ["ac.uk".toList, "co.uk".toList, "gov.uk".toList, "gov.au".toList,
   "com.au".toList, "com.br".toList, "com.mx".toList]

/-- `_strip_port` from `backend/core/helpers.py`:
strip + lowercase, unwrap a `[...]` bracket pair, cut at the first `:`,
then trim leading/trailing dots. -/
def _strip_port (domain : Str) : Str :=
  let candidate := pyLower (pyStrip domain)
  if candidate = [] then []
  else if candidate.head? = some '[' ∧ candidate.getLast? = some ']' then
    (candidate.drop 1).dropLast
  else
    let candidate := if candidate.contains ':' then candidate.takeWhile (· ≠ ':') else candidate
    stripDots candidate

/-- `registrable_domain` from `backend/core/helpers.py` (the `lru_cache`
decoration is behaviourally transparent). -/
def registrable_domain (domain : Option Str) : Option Str :=
  match domain with
  | none => none
  | some d =>
    if d = [] then none
    else
      let host := _strip_port d
      if host = [] then none
      else if pyIsdigit (host.filter (· ≠ '.')) then some host
      else
        let labels := host.splitOn '.'
        if labels.length ≤ 2 then some host
        else
          let suffix_two := joinDots (labels.drop (labels.length - 2))
          if suffix_two ∈ _PUBLIC_SUFFIX_3 ∧ 3 ≤ labels.length then
            some (joinDots (labels.drop (labels.length - 3)))
          else some suffix_two

/-- `norm_domain` from `backend/core/helpers.py`. -/
def norm_domain (domain : Option Str) (keep_subdomains : Bool) : Option Str :=
  match domain with
  | none => none
  | some d =>
    if d = [] then none
    else
      let cleaned := _strip_port d
      if cleaned = [] then none
      else if keep_subdomains then some cleaned
      else registrable_domain (some cleaned)

/- ============================================================
   backend/core/edit_distance.py — banded_levenshtein
   ============================================================ -/

/-- Substitution cost used by the DP (0 on equal characters, else 1). -/
def subCost (x y : Char) : Nat := if x = y then 0 else 1

/-- Reference (unbounded) Levenshtein distance, fuel-structural so that the
kernel can evaluate it; `lev` below fixes the fuel. -/
def levFuel : Nat → Str → Str → Nat
  | _, [], ys => ys.length
  | _, xs, [] => xs.length
  | 0, _, _ => 0
  | f + 1, x :: xs, y :: ys =>
    min (min (levFuel f xs (y :: ys) + 1) (levFuel f (x :: xs) ys + 1))
        (levFuel f xs ys + subCost x y)

/-- The unbounded Levenshtein distance between two strings (textbook
recursion on the first characters). -/
def lev (a b : Str) : Nat := levFuel (a.length + b.length) a b

/-- One cell of the banded DP row (Python's inner `for j in range(start, end+1)`
loop; indices outside the band hold the sentinel `inf`, like the
`[inf] * (len_b + 1)` initialisation). -/
def bandCell (a b : Str) (band inf : Nat) (prev : Nat → Nat) (i : Nat) : Nat → Nat
  | 0 => if i ≤ band then i else inf
  | j + 1 =>
    if max 1 (i - band) ≤ j + 1 ∧ j + 1 ≤ min b.length (i + band) then
      min (min (prev (j + 1) + 1) (bandCell a b band inf prev i j + 1))
          (prev j + subCost (a.getD (i - 1) ' ') (b.getD j ' '))
    else inf

/-- Minimum of `f` over the `len` indices starting at `lo`
(Python's `min(previous[window_start:window_end])`). -/
def minOver (f : Nat → Nat) (lo : Nat) : Nat → Nat
  | 0 => f lo
  | 1 => f lo
  | n + 2 => min (f lo) (minOver f (lo + 1) (n + 1))

/-- The row loop `for i in range(1, len_a + 1)` with the early-exit check
performed after each row when a cutoff is given. -/
def bandLoop (a b : Str) (band inf k : Nat) : Nat → (Nat → Nat) → Nat → Option (Nat → Nat)
  | 0, prev, _ => some prev
  | n + 1, prev, i =>
    let cur := bandCell a b band inf prev i
    let ws := max 1 (i - band) - 1
    let we := min b.length (i + band) + 1
    if k < minOver cur ws (we - ws) then none
    else bandLoop a b band inf k n cur (i + 1)

/-- The row loop without the early-exit check (`max_distance is None`). -/
def bandRowsPlain (a b : Str) (band inf : Nat) : Nat → (Nat → Nat) → Nat → (Nat → Nat)
  | 0, prev, _ => prev
  | n + 1, prev, i => bandRowsPlain a b band inf n (bandCell a b band inf prev i) (i + 1)

/-- Row 0 of the DP (`previous[0] = 0; previous[j] = j for j ≤ min(len_b, band)`,
`inf` elsewhere). -/
def row0 (b : Str) (band inf : Nat) : Nat → Nat :=
  fun j => if j ≤ min b.length band then j else inf

/-- `banded_levenshtein` from `backend/core/edit_distance.py`.  `max_distance`
is a `Nat` when present, so the `ValueError` branch for a negative cutoff
cannot fire and is not modelled. -/
def banded_levenshtein (a b : Str) (maxDistance : Option Nat) : Option Nat :=
  if a = b then some 0
  else if a = [] then
    match maxDistance with
    | none => some b.length
    | some k => if b.length ≤ k then some b.length else none
  else if b = [] then
    match maxDistance with
    | none => some a.length
    | some k => if a.length ≤ k then some a.length else none
  else
    match maxDistance with
    | some k =>
      if k < Nat.dist a.length b.length then none
      else
        let s := if b.length < a.length then b else a
        let t := if b.length < a.length then a else b
        match bandLoop s t k (k + 1) k s.length (row0 t k (k + 1)) 1 with
        | none => none
        | some fin => if k < fin t.length then none else some (fin t.length)
    | none =>
      let s := if b.length < a.length then b else a
      let t := if b.length < a.length then a else b
      let band := max s.length t.length
      let inf := s.length + t.length + 1
      some (bandRowsPlain s t band inf s.length (row0 t band inf) 1 t.length)

/- ============================================================
   backend/core/text.py (restricted Unicode model)
   ============================================================ -/

/-- Apostrophe character (used by the tokenizer's `[A-Za-z0-9']+` class). -/
def apos : Char := Char.ofNat 39

/-- Model of `_strip_control_characters`: category `Cc` is modelled as the
ASCII/Latin-1 control ranges, `Cf` as the zero-width/format code points used
in this code base; tab, newline and carriage return become spaces, other
control characters are dropped.  (NFKC, applied before this step in
`normalize_text`, is the identity on the modelled repertoire.) -/
def _strip_control_characters (s : Str) : Str :=
  s.foldr (fun c acc =>
    if c.toNat < 32 ∨ (127 ≤ c.toNat ∧ c.toNat ≤ 159) ∨
        c.toNat ∈ [0x200B, 0x200C, 0x200D, 0x200E, 0x200F,
                    0x2060, 0x2061, 0x2062, 0x2063, 0x2064, 0xFEFF, 0x00AD] then
      (if c = '\n' ∨ c = '\r' ∨ c = '\t' then ' ' :: acc else acc)
    else c :: acc) []

/-- Model of `_strip_accents` (NFKD + drop combining marks): the identity on
the modelled repertoire, which contains no combining marks. -/
def _strip_accents (s : Str) : Str := s

/-- Python `str.split()` (split on whitespace runs, dropping empties). -/
def pyWords (s : Str) : List Str :=
  (s.splitOnP Char.isWhitespace).filter (· ≠ [])

/-- `_WHITESPACE_RE.sub(" ", s).strip()`. -/
def collapseWhitespace (s : Str) : Str := joinWith ' ' (pyWords s)

/-- `normalize_text` from `backend/core/text.py`. -/
def normalize_text (text : Option Str)
    (lowercase strip_accents collapse_whitespace : Bool) : Str :=
  match text with
  | none => []
  | some t =>
    if t = [] then []
    else
      let n := _strip_control_characters t
      let n := if strip_accents then _strip_accents n else n
      let n := if lowercase then pyLower n else n
      let n := if collapse_whitespace then collapseWhitespace n else n
      n

/-- Character class `[A-Za-z0-9']` of `_TOKEN_RE`. -/
def isTokenChar (c : Char) : Bool := c.isAlphanum || c = apos

/-- `tokenize_words` from `backend/core/text.py` (callers always pass
`min_length ≥ 1`, so the `ValueError` branch cannot fire). -/
def tokenize_words (text : Option Str) (lowercase : Bool) (min_length : Nat) :
    List Str :=
  let cleaned := normalize_text text lowercase true true
  if cleaned = [] then []
  else ((cleaned.splitOnP (fun c => ¬ isTokenChar c)).filter (· ≠ [])).filter
    (fun t => min_length ≤ t.length)

/- ============================================================
   backend/core/position.py
   ============================================================ -/

def EARLY_BODY_WINDOW : Nat := 400
def BASE_KEYWORD_POINTS : Nat := 1
def SUBJECT_BONUS : Nat := 2
def EARLY_BODY_BONUS : Nat := 1

/-- `KeywordHit` from `backend/core/position.py`. -/
structure KeywordHit where
  keyword : Str
  location : Str
  points : Nat
  offset : Int
deriving DecidableEq, Repr

/-- `_find_offset` (Python `haystack.index(needle)` with `-1` on absence). -/
def _find_offset (haystack needle : Str) : Int :=
  match indexOfSub haystack needle with
  | some i => (i : Int)
  | none => -1

/-- Accumulator of `score_keyword_positions` (`hits`, `matched`, `seen`,
`total_points`). -/
structure KwState where
  total : Nat
  matched : List Str
  seen : List Str
  hits : List KeywordHit
deriving DecidableEq, Repr

/-- `record_hit` inside `score_keyword_positions`. -/
def record_hit (st : KwState) (keyword location : Str) (points : Nat)
    (offset : Int) (signature : Str) : KwState :=
  { total := st.total + points
    matched := if signature ∈ st.seen then st.matched else st.matched ++ [keyword]
    seen := if signature ∈ st.seen then st.seen else signature :: st.seen
    hits := st.hits ++ [KeywordHit.mk keyword location points offset] }

/-- Body of the `for keyword in keywords` loop of `score_keyword_positions`. -/
def kw_step (subjectNorm earlySpan lateSpan : Str) (ebw : Nat)
    (st : KwState) (keyword : Str) : KwState :=
  let kwNorm := pyLower keyword
  if kwNorm = [] then st
  else if strContains subjectNorm kwNorm then
    record_hit st keyword ("subject".toList) (BASE_KEYWORD_POINTS + SUBJECT_BONUS)
      (_find_offset subjectNorm kwNorm) kwNorm
  else if strContains earlySpan kwNorm then
    record_hit st keyword ("early_body".toList) (BASE_KEYWORD_POINTS + EARLY_BODY_BONUS)
      (_find_offset earlySpan kwNorm) kwNorm
  else if strContains lateSpan kwNorm then
    record_hit st keyword ("body".toList) BASE_KEYWORD_POINTS
      (let off := _find_offset lateSpan kwNorm
       if 0 ≤ off then off + (ebw : Int) else off) kwNorm
  else st

/-- `score_keyword_positions` from `backend/core/position.py`. -/
def score_keyword_positions (subject body : Option Str) (keywords : List Str)
    (early_body_window : Nat) : Nat × List Str × List KeywordHit :=
  let subjectNorm := pyLower (subject.getD [])
  let bodyNorm := pyLower (body.getD [])
  let earlySpan := bodyNorm.take early_body_window
  let lateSpan := bodyNorm.drop early_body_window
  let final := keywords.foldl
    (kw_step subjectNorm earlySpan lateSpan early_body_window)
    { total := 0, matched := [], seen := [], hits := [] }
  (final.total, final.matched, final.hits)

/- ============================================================
   backend/core/lexical_score.py
   ============================================================ -/

def FALLBACK_KEYWORDS : List Str :=
  ["urgent".toList, "click here".toList, "verify".toList, "login".toList,
   "password".toList, "account".toList]

/-- `_default_keywords`: the data file `backend/data/suspicious_terms.txt` is
not part of the sources under verification, so the `path.exists()` guard of
`_load_terms_from_file` fails and the loader returns the built-in
`FALLBACK_KEYWORDS`; that behaviour is modelled here. -/
def _default_keywords : List Str := FALLBACK_KEYWORDS

/-- `lexical_score` from `backend/core/lexical_score.py`. -/
def lexical_score (subject body : Option Str) (keywords : Option (List Str)) :
    Nat × List Str × List KeywordHit :=
  score_keyword_positions subject body (keywords.getD _default_keywords)
    EARLY_BODY_WINDOW

/- ============================================================
   backend/core/identity_checks.py
   ============================================================ -/

def _FALLBACK_BRANDS : List (Str × Str) :=
  [("paypal".toList, "paypal.com".toList),
   ("ebay".toList, "ebay.com".toList),
   ("amazon".toList, "amazon.com".toList),
   ("apple".toList, "apple.com".toList),
   ("microsoft".toList, "microsoft.com".toList),
   ("bank of america".toList, "bankofamerica.com".toList),
   ("chase bank".toList, "chase.com".toList)]

/-- `_load_brand_lists`: `backend/data/known_brands.txt` is not part of the
sources, so the `OSError` path applies and only the fallback records load;
the fallback names/domains are pairwise distinct and already lower-case, so
`add_record`'s dedup and cleanup are the identity. -/
def _known_brand_names : List Str := _FALLBACK_BRANDS.map (·.1)

def _known_brand_domains : List Str := _FALLBACK_BRANDS.map (·.2)

/-- `is_idn_or_confusable` from `backend/core/identity_checks.py`
(`False` is modelled as `none`). -/
def is_idn_or_confusable (domain : Option Str) : Option Str :=
  match domain with
  | none => none
  | some d =>
    if d = [] then none
    else if strContains d ("xn--".toList) then some ("xn-- prefix".toList)
    else if d.any (fun c => 127 < c.toNat) then some ("non-ASCII characters".toList)
    else none

/-- `is_freemx` from `backend/core/identity_checks.py`. -/
def is_freemx (domain : Str) : Bool :=
  domain ∈ ["gmail.com".toList, "yahoo.com".toList, "hotmail.com".toList]

/- ============================================================
   backend/core/edit_distance.py — fuzzy matchers
   ============================================================ -/

/-- `fuzzy_domain_matches` from `backend/core/edit_distance.py`. -/
def fuzzy_domain_matches (domain : Option Str) (candidates : List Str)
    (max_distance : Nat) : List Str :=
  let domainNorm := (normalize_text domain true true true).filter (· ≠ ' ')
  if domainNorm = [] then []
  else candidates.filter (fun cand =>
    let candNorm := (normalize_text (some cand) true true true).filter (· ≠ ' ')
    candNorm ≠ [] ∧ (candNorm = domainNorm ∨
      (banded_levenshtein domainNorm candNorm (some max_distance)).isSome))

/-- `fuzzy_brand_mentions` from `backend/core/edit_distance.py`. -/
def fuzzy_brand_mentions (text : Option Str) (brands : List Str)
    (max_distance : Nat) : List Str :=
  let tokens := tokenize_words text true 1
  if tokens = [] then []
  else
    (brands.foldl (fun (acc : List Str × List Str) brand =>
      let ms := acc.1
      let seen := acc.2
      let brandNorm := normalize_text (some brand) true true true
      if brandNorm = [] ∨ brandNorm ∈ seen then acc
      else
        let brandTokens := pyWords brandNorm
        let tokenCount := brandTokens.length
        if tokenCount = 1 then
          let brandWord := brandTokens.headD []
          if tokens.any (fun tok => tok = brandWord ∨
              (banded_levenshtein tok brandWord (some max_distance)).isSome) then
            (ms ++ [brand], brandNorm :: seen)
          else acc
        else
          if (List.range (tokens.length + 1 - tokenCount)).any (fun idx =>
              let cand := joinWith ' ' ((tokens.drop idx).take tokenCount)
              cand = brandNorm ∨
                (banded_levenshtein cand brandNorm (some max_distance)).isSome) then
            (ms ++ [brand], brandNorm :: seen)
          else acc) ([], [])).1

/-- `mentions_brand` from `backend/core/identity_checks.py`. -/
def mentions_brand (subj body : Option Str) (max_distance : Nat) :
    Option (List Str) :=
  let text := (subj.getD []) ++ [' '] ++ (body.getD [])
  let ms := fuzzy_brand_mentions (some text) _known_brand_names max_distance
  if ms = [] then none else some ms

/-- `domain_similar_to_brand` from `backend/core/identity_checks.py`. -/
def domain_similar_to_brand (domain : Option Str) (max_distance : Nat) :
    Option (List Str) :=
  let ms := fuzzy_domain_matches domain _known_brand_domains max_distance
  if ms = [] then none else some ms

/- ============================================================
   backend/core/routing_checks.py
   ============================================================ -/

/-- Decimal rendering of a number, for the f-strings in explanations. -/
def natStr (n : Nat) : Str := (Nat.repr n).toList

/-- `received_anomaly` from `backend/core/routing_checks.py`
(`False` is modelled as `none`). -/
def received_anomaly (received_headers : List Str) : Option Str :=
  if 5 < received_headers.length then
    some (natStr received_headers.length ++ " headers (>5)".toList)
  else
    let long := received_headers.filter (fun r => 1000 < r.length)
    if long ≠ [] then
      some (natStr long.length ++ " header(s) with length >1000".toList)
    else none

/-- `\w` of the Message-ID domain regex (ASCII model). -/
def isWordChar (c : Char) : Bool := c.isAlphanum || c = '_'

def isMsgidDomChar (c : Char) : Bool := isWordChar c || c = '.' || c = '-'

/-- First match of `re.search(r'@([\w.-]+)', s)`: the maximal run of
`[\w.-]` characters after the first `@` that is followed by at least one
such character. -/
def regexAtDomain : Str → Option Str
  | [] => none
  | c :: rest =>
    if c = '@' then
      let run := rest.takeWhile isMsgidDomChar
      if run ≠ [] then some run else regexAtDomain rest
    else regexAtDomain rest

/-- `msgid_domain_mismatch` from `backend/core/routing_checks.py`.  When
`norm_domain` yields `None`, the Python code returns that `None` through the
`!=` comparison, which coincides with returning no mismatch. -/
def msgid_domain_mismatch (msgid : Option Str) (from_dom : Option Str) :
    Option Str :=
  match msgid, from_dom with
  | some m, some f =>
    if m = [] ∨ f = [] then none
    else
      match regexAtDomain m with
      | some captured =>
        match norm_domain (some captured) false with
        | some md => if md ≠ f then some md else none
        | none => none
      | none => none
  | _, _ => none

/- ============================================================
   backend/core/attachment_checks.py
   ============================================================ -/

def _DANGEROUS_EXTS : List Str := [".exe".toList, ".scr".toList, ".pif".toList]

def _SUSP_ARCHIVE_EXTS : List Str := [".zip".toList, ".rar".toList, ".7z".toList]

/-- `is_dangerous` from `backend/core/attachment_checks.py`. -/
def is_dangerous (att : Str) : Bool :=
  if att = [] then false
  else _DANGEROUS_EXTS.any (fun e => e.isSuffixOf (pyLower att))

/-- `archive_name_suspicious` from `backend/core/attachment_checks.py`. -/
def archive_name_suspicious (att : Str) : Bool :=
  if att ≠ [] ∧ _SUSP_ARCHIVE_EXTS.any (fun e => e.isSuffixOf (pyLower att)) then
    100 < att.length
  else false

/- ============================================================
   backend/core/url_checks.py
   ============================================================ -/

/-- A parsed URL as produced by the external parser (`urllib.ParseResult`):
scheme, hostname (already lower-cased by `urllib`, `none` when absent),
path, query, and the reconstructed full URL text (`geturl()`).  The spec's
input contract hands URLs over in exactly this shape. -/
structure Url where
  scheme : Str
  hostname : Option Str
  path : Str
  query : Str
  full : Str
deriving DecidableEq, Repr

def WHITELIST_DOMAINS : List Str :=
  ["enron.com".toList, "gmail.com".toList, "yahoo.com".toList,
   "hotmail.com".toList, "outlook.com".toList, "microsoft.com".toList,
   "apple.com".toList, "google.com".toList]

def TRUSTED_CONTENT_DOMAINS : List Str :=
  ["linkedin.com".toList, "facebook.com".toList, "instagram.com".toList,
   "twitter.com".toList, "pinterest.com".toList, "github.com".toList,
   "gitlab.com".toList, "figma.com".toList, "dropbox.com".toList,
   "box.com".toList, "salesforce.com".toList, "zendesk.com".toList,
   "notion.so".toList, "medium.com".toList, "slack.com".toList]

def _TRUSTED_BASES : List Str := WHITELIST_DOMAINS ++ TRUSTED_CONTENT_DOMAINS

def _HIGH_RISK_TLDS : List Str :=
  [".tk".toList, ".ml".toList, ".ga".toList, ".cf".toList, ".gq".toList,
   ".xyz".toList, ".top".toList, ".click".toList, ".country".toList]

def _SHORTENER_HOSTS : List Str :=
  ["bit.ly".toList, "tinyurl.com".toList, "t.co".toList, "ow.ly".toList,
   "buff.ly".toList, "rebrand.ly".toList, "goo.gl".toList, "rb.gy".toList]

def _PRIMARY_CRED_KEYWORDS : List Str :=
  ["login".toList, "signin".toList, "password".toList, "credential".toList]

def _SECONDARY_CRED_KEYWORDS : List Str :=
  ["verify".toList, "secure".toList, "update".toList, "auth".toList,
   "token".toList, "reset".toList, "confirm".toList]

/-- `is_high_risk_tld` from `backend/core/url_checks.py`. -/
def is_high_risk_tld (host : Option Str) : Bool :=
  match host with
  | none => false
  | some h =>
    if h = [] then false else _HIGH_RISK_TLDS.any (fun t => t.isSuffixOf h)

/-- `is_shortener` from `backend/core/url_checks.py`. -/
def is_shortener (host : Option Str) : Bool :=
  match host with
  | none => false
  | some h => if h = [] then false else pyLower h ∈ _SHORTENER_HOSTS

/-- `_credential_harvest_score` from `backend/core/url_checks.py`. -/
def _credential_harvest_score (path query : Str) : Nat :=
  let parts := [path, query].filter (· ≠ [])
  let combined := pyLower (joinWith ' ' parts)
  if combined = [] then 0
  else
    let primary_hits :=
      (_PRIMARY_CRED_KEYWORDS.filter (fun kw => strContains combined kw)).length
    let secondary_hits :=
      (_SECONDARY_CRED_KEYWORDS.filter (fun kw => strContains combined kw)).length
    if primary_hits = 0 then 0
    else min (1 + min (primary_hits - 1) 1 + min secondary_hits 1) 3

/-- `looks_credential_harvest` from `backend/core/url_checks.py`. -/
def looks_credential_harvest (path query : Str) : Bool :=
  0 < _credential_harvest_score path query

/-- `re.search(r'\d{3,}', s)`: three consecutive ASCII digits somewhere. -/
def hasDigitRun3 : Str → Bool
  | a :: b :: c :: rest =>
    (a.isDigit && b.isDigit && c.isDigit) || hasDigitRun3 (b :: c :: rest)
  | _ => false

/-- `_domain_risk` from `backend/core/url_checks.py`. -/
def _domain_risk (host : Option Str) (sender_domain : Option Str) :
    Nat × Option Str :=
  match host with
  | none => (0, none)
  | some h =>
    if h = [] then (0, none)
    else
      let host_lower := pyLower h
      let base := (registrable_domain (some host_lower)).getD host_lower
      if base ∈ _TRUSTED_BASES then (0, none)
      else
        let sender_base : Option Str :=
          match sender_domain with
          | some sd => if sd = [] then none else registrable_domain (some sd)
          | none => none
        let sender_match : Bool :=
          match sender_base with
          | some sb => decide (base = sb) || sb.isSuffixOf host_lower
          | none => false
        if sender_match then (0, none)
        else if hasDigitRun3 host_lower ∨ 2 ≤ host_lower.count '-' ∨
            ("xn--".toList).isPrefixOf host_lower ∨ 3 ≤ host_lower.count '.' then
          (2, some ("Unfamiliar domain structure".toList))
        else
          match sender_base with
          | some _ => (1, some ("Domain differs from sender".toList))
          | none => (0, none)

/-- One entry of `check_urls`' findings list. -/
structure UrlFinding where
  url : Url
  reasons : List Str
  score : Nat
deriving DecidableEq, Repr

/-- `(url.scheme, url.hostname, url.path, url.query)` fingerprint. -/
def fingerprintOf (u : Url) : Str × Option Str × Str × Str :=
  (u.scheme, u.hostname, u.path, u.query)

/-- The per-URL risk computation of `check_urls`' loop body (everything
between the `seen` bookkeeping and the `findings.append`): the finding for
one URL, or `none` when its risk is zero. -/
def mkFinding (sender_domain : Option Str) (url : Url) : Option UrlFinding :=
  let host := url.hostname
  let dr := _domain_risk host sender_domain
  let reasons : List Str := match dr.2 with | some r => [r] | none => []
  let risk := dr.1
  let reasons := if is_high_risk_tld host then reasons ++ ["High-risk TLD".toList] else reasons
  let risk := if is_high_risk_tld host then risk + 2 else risk
  let reasons := if is_shortener host then reasons ++ ["URL shortener".toList] else reasons
  let risk := if is_shortener host then risk + 2 else risk
  let cred := _credential_harvest_score url.path url.query
  let reasons := if cred ≠ 0 then reasons ++ ["Credential-related terms in URL".toList] else reasons
  let risk := if cred ≠ 0 then risk + cred else risk
  if risk ≠ 0 then some ⟨url, reasons, min risk 6⟩ else none

/-- Body of `check_urls`' per-URL loop. -/
def check_urls_step (sender_domain : Option Str)
    (acc : List UrlFinding × List (Str × Option Str × Str × Str)) (url : Url) :
    List UrlFinding × List (Str × Option Str × Str × Str) :=
  let findings := acc.1
  let seen := acc.2
  let fp := fingerprintOf url
  if fp ∈ seen then acc
  else
    match mkFinding sender_domain url with
    | some f => (findings ++ [f], fp :: seen)
    | none => (findings, fp :: seen)

/-- `check_urls` from `backend/core/url_checks.py`. -/
def check_urls (urls : List Url) (sender_domain : Option Str) : List UrlFinding :=
  (urls.foldl (check_urls_step sender_domain) ([], [])).1

/- ============================================================
   backend/core/scoring.py
   ============================================================ -/

/-- The `received` header slot of the dynamic headers map (`str`, list of
`str`, or absent). -/
inductive ReceivedVal where
  | absent
  | one (s : Str)
  | many (ss : List Str)
deriving DecidableEq, Repr

/-- The header mapping consumed by `score_email` (`headers.get(...)`). -/
structure Headers where
  hFrom : Option Str
  hReplyTo : Option Str
  hReturnPath : Option Str
  hSubject : Option Str
  hMessageId : Option Str
  hReceived : ReceivedVal
deriving DecidableEq, Repr

/-- Model of `email.utils.parseaddr(s)[1]` for the address shapes exercised
by this code base: `Name <addr>` yields the text between the first `<` and
the following `>`, a bare addr-spec is returned trimmed. -/
def parseaddr_addr (s : Str) : Str :=
  if s.contains '<' then ((s.dropWhile (· ≠ '<')).drop 1).takeWhile (· ≠ '>')
  else pyStrip s

/-- `parse_core_addresses` from `backend/core/helpers.py`. -/
def parse_core_addresses (h : Headers) : Option Str × Option Str × Option Str :=
  let f := parseaddr_addr (h.hFrom.getD [])
  let r := parseaddr_addr (h.hReplyTo.getD [])
  let rp := parseaddr_addr (h.hReturnPath.getD [])
  ((if f = [] then none else some f),
   (if r = [] then none else some r),
   (if rp = [] then none else some rp))

/-- `_address_domains` from `backend/core/scoring.py`. -/
def _address_domains (address : Option Str) : Option Str × Option Str :=
  match address with
  | none => (none, none)
  | some a =>
    if a = [] ∨ ¬ a.contains '@' then (none, none)
    else
      let host := (a.dropWhile (· ≠ '@')).drop 1
      (norm_domain (some host) true, norm_domain (some host) false)

/-- The `received` extraction of `score_email` (list/str/absent handling). -/
def getReceivedValues : ReceivedVal → List Str
  | .absent => []
  | .one s => if s = [] then [] else [s]
  | .many ss => ss

/-- `label_from` from `backend/core/scoring.py`. -/
def label_from (score : Int) : Str :=
  if 10 ≤ score then "HIGH".toList
  else if 5 ≤ score then "MEDIUM".toList
  else "LOW".toList

/-- Result tuple of `score_email`:
`(label, score, explanations, matched_keywords, suspicious_urls)`. -/
structure ScoreOutcome where
  label : Str
  score : Int
  explanations : List Str
  matchedKeywords : List Str
  suspiciousUrls : List UrlFinding
deriving DecidableEq, Repr

def joinStrSep (sep : Str) (ls : List Str) : Str := List.intercalate sep ls

/-- Explanation line for one applied URL finding. -/
def urlExp (applied : Nat) (f : UrlFinding) : Str :=
  "+".toList ++ natStr applied ++ " points: Suspicious URL ".toList ++
    f.url.full ++ " (".toList ++ joinStrSep ("; ".toList) f.reasons ++ ")".toList

/-- The URL loop of `score_email`: per-finding points `min(raw, 4)` with the
running URL total capped at 8; returns the points added and the emitted
explanation lines. -/
def url_points_loop : List UrlFinding → Nat → Nat × List Str
  | [], _ => (0, [])
  | f :: rest, acc =>
    let raw := f.score
    if raw = 0 then url_points_loop rest acc
    else
      let applied := min raw 4
      let applied := if 8 < acc + applied then 8 - acc else applied
      if applied = 0 then url_points_loop rest acc
      else
        let r := url_points_loop rest (acc + applied)
        (applied + r.1, urlExp applied f :: r.2)

/-- Explanation line for one positional keyword hit. -/
def hitLine (hit : KeywordHit) : Str :=
  let loc := if hit.location = "subject".toList then "subject".toList
    else if hit.location = "early_body".toList then "early body".toList
    else "body".toList
  "+".toList ++ natStr hit.points ++ " points: Keyword ".toList ++ [apos] ++
    hit.keyword ++ [apos] ++ " in ".toList ++ loc

/-- `score_email` from `backend/core/scoring.py`.

The lexical block computes
`descriptor_text = ', '.join(matched_descriptions) if matched_descriptions
else ', '.join(matched_phrases)` where `matched_descriptions` is the list of
`KeywordHit` dataclasses returned by `lexical_score`; joining non-strings
raises `TypeError`, which is modelled by the `Except.error` branch: it fires
exactly when `lex_score` is non-zero and the hit list is non-empty. -/
def score_email (headers : Headers) (body_text : Str) (urls : List Url)
    (attachments : List Str) : Except Str ScoreOutcome :=
  let addrs := parse_core_addresses headers
  let from_addr := addrs.1
  let reply_to := addrs.2.1
  let return_path := addrs.2.2
  let fd := _address_domains from_addr
  let from_host := fd.1
  let from_dom := fd.2
  let reply_dom := (_address_domains reply_to).2
  let return_dom := (_address_domains return_path).2
  -- Identity
  let st0 : Int × List Str := (0, [])
  let st1 :=
    match reply_dom, from_dom with
    | some rd, some fdm =>
      if rd ≠ fdm then
        (st0.1 + 3, st0.2 ++
          ["+3 points: Reply-to domain differs from From domain (".toList ++ rd ++ ")".toList])
      else st0
    | _, _ => st0
  let st2 :=
    match return_dom, from_dom with
    | some rd, some fdm =>
      if rd ≠ fdm then
        (st1.1 + 2, st1.2 ++
          ["+2 points: Return-path domain differs from From domain (".toList ++ rd ++ ")".toList])
      else st1
    | _, _ => st1
  let confusable_target := match from_host with | some h => some h | none => from_dom
  let st3 :=
    match confusable_target with
    | some tgt =>
      match is_idn_or_confusable (some tgt) with
      | some reason =>
        (st2.1 + 3, st2.2 ++
          ["+3 points: From domain contains IDN or confusable characters (".toList ++
            reason ++ " in ".toList ++ tgt ++ ")".toList])
      | none => st2
    | none => st2
  let st4 :=
    match from_dom with
    | some fdm =>
      if is_freemx fdm then
        match mentions_brand (some (headers.hSubject.getD [])) (some body_text) 1 with
        | some brands =>
          (st3.1 + 2, st3.2 ++
            ["+2 points: Free email provider (".toList ++ fdm ++
              ") with brand mention (".toList ++ joinStrSep (", ".toList) brands ++ ")".toList])
        | none => st3
      else st3
    | none => st3
  -- Routing
  let received_values := getReceivedValues headers.hReceived
  let st5 :=
    if received_values ≠ [] then
      match received_anomaly received_values with
      | some reason =>
        (st4.1 + 2, st4.2 ++
          ["+2 points: Anomalous Received headers (".toList ++ reason ++ ")".toList])
      | none => st4
    else st4
  let st6 :=
    match msgid_domain_mismatch headers.hMessageId from_dom with
    | some md =>
      (st5.1 + 1, st5.2 ++
        ["+1 point: Message-ID domain mismatch (".toList ++ md ++ ")".toList])
    | none => st5
  -- Lexical
  let lx := lexical_score (some (headers.hSubject.getD [])) (some body_text) none
  let lex_score := lx.1
  let matched_phrases := lx.2.1
  let matched_descriptions := lx.2.2
  if lex_score ≠ 0 ∧ matched_descriptions ≠ [] then
    Except.error ("TypeError: sequence item 0: expected str instance, KeywordHit found".toList)
  else
    let st7 :=
      if lex_score ≠ 0 then
        (st6.1 + (lex_score : Int), st6.2 ++
          ["+".toList ++ natStr lex_score ++ " points: Matched phishing language (".toList ++
            joinStrSep (", ".toList) matched_phrases ++ ")".toList])
      else st6
    -- Keyword position weighting
    let st8 :=
      if matched_phrases ≠ [] then
        let pos := score_keyword_positions (some (headers.hSubject.getD []))
          (some body_text) matched_phrases EARLY_BODY_WINDOW
        if pos.1 ≠ 0 then (st7.1 + (pos.1 : Int), st7.2 ++ pos.2.2.map hitLine)
        else st7
      else st7
    -- URLs
    let suspicious_urls := check_urls urls from_host
    let up := url_points_loop suspicious_urls 0
    let st9 : Int × List Str := (st8.1 + (up.1 : Int), st8.2 ++ up.2)
    -- Attachments
    let st10 := attachments.foldl (fun (acc : Int × List Str) att =>
      let acc := if is_dangerous att then
          (acc.1 + 4, acc.2 ++ ["+4 points: Dangerous attachment extension in ".toList ++ att])
        else acc
      if archive_name_suspicious att then
        (acc.1 + 2, acc.2 ++ ["+2 points: Suspicious archive attachment ".toList ++ att])
      else acc) st9
    -- Whitelist floor
    let final :=
      match from_dom with
      | some fdm =>
        if fdm ∈ WHITELIST_DOMAINS ∧ 0 < st10.1 then
          (max 0 (st10.1 - 4), st10.2 ++ ["-4 points: ".toList ++ fdm ++ " in whitelist".toList])
        else st10
      | none => st10
    Except.ok ⟨label_from final.1, final.1, final.2, matched_phrases, suspicious_urls⟩

/- ============================================================
   Facts about check_urls (claims C10 and C6)
   ============================================================ -/

/-- The deduplication `check_urls` performs: keep, in input order, the first
URL of each distinct `(scheme, hostname, path, query)` fingerprint. -/
def firstOccurAux : List Url → List (Str × Option Str × Str × Str) → List Url
  | [], _ => []
  | u :: rest, seen =>
    if fingerprintOf u ∈ seen then firstOccurAux rest seen
    else u :: firstOccurAux rest (fingerprintOf u :: seen)

def firstOccur (urls : List Url) : List Url := firstOccurAux urls []

/-- The repo's `evil.test/login` URL (`test_url_checks.py`). -/
def urlEvil : Url :=
  ⟨"http".toList, some ("evil.test".toList), "/login".toList, [],
   "http://evil.test/login".toList⟩

/-- The finding `check_urls` emits for `urlEvil` with sender `example.org`. -/
def findingEvil : UrlFinding :=
  ⟨urlEvil,
   ["Domain differs from sender".toList,
    "Credential-related terms in URL".toList], 2⟩

/- ============================================================
   backend/core/explain.py
   ============================================================ -/

def pyUpper (s : Str) : Str := s.map Char.toUpper

/-- Decimal rendering of a Python `int`, for the f-strings of `explain.py`. -/
def intStr (i : Int) : Str :=
  if i < 0 then '-' :: natStr i.natAbs else natStr i.toNat

/-- Python `s.rstrip(". ")`. -/
def rstripDotSpace (s : Str) : Str :=
  (s.reverse.dropWhile (fun c => c = '.' ∨ c = ' ')).reverse

/-- First-occurrence deduplication (`list(dict.fromkeys(...))`). -/
def dedupFirstAux : List Str → List Str → List Str
  | [], _ => []
  | x :: xs, seen =>
    if x ∈ seen then dedupFirstAux xs seen
    else x :: dedupFirstAux xs (x :: seen)

def dedupFirst (l : List Str) : List Str := dedupFirstAux l []

/-- Python `s.replace(pat, "", 1)`. -/
def replaceFirst (s pat : Str) : Str :=
  match indexOfSub s pat with
  | some i => s.take i ++ s.drop (i + pat.length)
  | none => s

/-- `_extract_action_clause` from `backend/core/explain.py`. -/
def _extract_action_clause (text : Str) : Option Str :=
  match indexOfSub text ("Action:".toList) with
  | none => none
  | some i =>
    let clause := rstripDotSpace (pyStrip (text.drop (i + 7)))
    if clause = [] then none else some clause

/-- `_collect_action_items` from `backend/core/explain.py`. -/
def _collect_action_items (detail_lines general_actions : List Str) : List Str :=
  let st := detail_lines.foldl (fun (acc : List Str × List Str) line =>
    match _extract_action_clause line with
    | some a => if a ∈ acc.2 then acc else (acc.1 ++ [a], a :: acc.2)
    | none => acc) ([], [])
  (general_actions.foldl (fun (acc : List Str × List Str) raw =>
    let normalized := rstripDotSpace (pyStrip (replaceFirst raw ("Next step:".toList)))
    if normalized ≠ [] ∧ normalized ∉ acc.2 then
      (acc.1 ++ [normalized], normalized :: acc.2)
    else acc) st).1

/-- `_format_action_summary` from `backend/core/explain.py` (its `limit`
parameter defaults to 4 in Python and is passed explicitly here). -/
def _format_action_summary (actions : List Str) (limit : Nat) : Str :=
  let limited := actions.take limit
  let summary := joinStrSep ("; ".toList) limited
  let summary := if limit < actions.length then summary ++ "; ...".toList else summary
  "Action checklist: ".toList ++ summary ++ ".".toList

/-- The `severity_text` dictionary of `_build_summary` with its `.get`
default. -/
def severityText (label : Str) : Str :=
  if label = "HIGH".toList then "High risk phishing alert".toList
  else if label = "MEDIUM".toList then "Elevated phishing risk".toList
  else if label = "LOW".toList then "Low phishing risk".toList
  else "Phishing assessment".toList

/-- The `guidance_text` dictionary of `_build_summary` with its `.get`
default. -/
def guidanceText (label : Str) : Str :=
  if label = "HIGH".toList then
    "Treat this message as malicious unless you can independently verify the sender.".toList
  else if label = "MEDIUM".toList then
    "Proceed with caution and confirm key details before acting.".toList
  else if label = "LOW".toList then
    "No immediate red flags were detected, but stay vigilant.".toList
  else []

/-- `_build_summary` from `backend/core/explain.py`. -/
def _build_summary (label : Str) (score : Int) (matched_keywords : List Str) : Str :=
  let summary := severityText label ++ ": composite score ".toList ++ intStr score ++
    ". ".toList ++ guidanceText label
  if matched_keywords ≠ [] then
    summary ++ " Flagged keywords: ".toList ++
      joinStrSep (", ".toList) ((dedupFirst matched_keywords).take 3) ++ ".".toList
  else summary

/-- `_stringify_url`: `ParseResult.geturl()` is modelled by the parse
result carrying its original text in `full`. -/
def _stringify_url (u : Url) : Str := u.full

/-- `_general_actions` from `backend/core/explain.py`. -/
def _general_actions (label : Str) (suspicious_urls : List (Url × List Str))
    (attachments : List Str) (has_attachment_signal : Bool) : List Str :=
  let actions := ["Next step: Verify the sender using a trusted contact method before responding or sharing information.".toList]
  let actions := actions ++
    (suspicious_urls.foldl (fun (acc : List Str × List Str) p =>
      let url_text := _stringify_url p.1
      if url_text ≠ [] ∧ url_text ∉ acc.2 then
        (acc.1 ++ ["Next step: Do not visit ".toList ++ url_text ++
          "; navigate to the destination using a bookmark or manually typed address instead.".toList],
         url_text :: acc.2)
      else acc) ([], [])).1
  let actions := if has_attachment_signal then
      if attachments ≠ [] then
        actions ++ ["Next step: Delete or quarantine attachments (".toList ++
          joinStrSep (", ".toList) ((dedupFirst attachments).take 2) ++
          ") until security confirms they are safe.".toList]
      else
        actions ++ ["Next step: Delete any attachments from this email and only open files that security has cleared.".toList]
    else actions
  if label = "HIGH".toList then
    actions ++ ["Next step: Report this message to your security or IT response team and remove it from your inbox.".toList]
  else actions

/-- The default detail line of `build_explanations` for label LOW. -/
def noIndicatorsLine : Str :=
  "No strong phishing indicators were detected. Action: Stay alert for unusual requests even when a message looks safe.".toList

/-- The default detail line of `build_explanations` for other labels. -/
def uninterpretedLine : Str :=
  "The message was flagged by the scoring engine, but specific signals could not be interpreted. Action: Treat the email as suspicious and verify through another channel.".toList

/-- `build_explanations` from `backend/core/explain.py`.  The per-reason
formatter `_humanize_reason` (a pure string function dispatching on twelve
needle substrings) is abstracted as the parameter `humanize`: the claims
proved below only exercise the empty-`raw_reasons` path, on which the
formatter is never applied, and the theorems hold for every formatter. -/
def build_explanations (humanize : Str → Str) (label : Str) (score : Int)
    (raw_reasons matched_keywords : List Str)
    (suspicious_urls : List (Url × List Str)) (attachments : List Str) : List Str :=
  let reasons := raw_reasons
  let matched := matched_keywords.filter (· ≠ [])
  let urls := suspicious_urls
  let attachment_names := attachments.filter (· ≠ [])
  let has_attachment_signal :=
    reasons.any (fun r => strContains (pyLower r) ("attachment".toList))
  let detail_lines := (reasons.map humanize).filter (· ≠ [])
  let label_upper := pyUpper label
  let detail_lines :=
    if detail_lines = [] then
      if label_upper = "LOW".toList then [noIndicatorsLine] else [uninterpretedLine]
    else detail_lines
  let summary := _build_summary label_upper score matched
  let lines := [summary] ++ detail_lines
  let general_actions :=
    if label_upper = "MEDIUM".toList ∨ label_upper = "HIGH".toList then
      _general_actions label_upper urls attachment_names has_attachment_signal
    else []
  let lines := general_actions.foldl
    (fun ls a => if a ∈ ls then ls else ls ++ [a]) lines
  let action_items := _collect_action_items detail_lines general_actions
  if label_upper ≠ "LOW".toList ∧ action_items ≠ [] then
    lines ++ [_format_action_summary action_items 4]
  else lines

/- ============================================================
   The quiet path of score_email (claims C3 and C8)
   ============================================================ -/

/-- `from_host` as `score_email` derives it from the headers. -/
def fromHostOf (h : Headers) : Option Str :=
  (_address_domains (parse_core_addresses h).1).1

/-- `from_dom` as `score_email` derives it from the headers. -/
def fromDomOf (h : Headers) : Option Str :=
  (_address_domains (parse_core_addresses h).1).2

/-- `reply_dom` as `score_email` derives it from the headers. -/
def replyDomOf (h : Headers) : Option Str :=
  (_address_domains (parse_core_addresses h).2.1).2

/-- `return_dom` as `score_email` derives it from the headers. -/
def returnDomOf (h : Headers) : Option Str :=
  (_address_domains (parse_core_addresses h).2.2).2

/-- `confusable_target = from_host or from_dom` of `score_email`. -/
def confusableTargetOf (h : Headers) : Option Str :=
  match fromHostOf h with
  | some x => some x
  | none => fromDomOf h

/- ============================================================
   Concrete emails for claims C1, C3, C4 and C8
   ============================================================ -/

/-- The message the Python `join` raises on: `str.join` over the
`KeywordHit` dataclasses returned as `matched_descriptions`
(`scoring.py` line 97). -/
def typeErrorMsg : Str :=
  "TypeError: sequence item 0: expected str instance, KeywordHit found".toList

/-- The input of `backend/tests/test_llm_cache.py` and `test_position.py`:
From `alerts@example.com`, subject `Urgent billing update`. -/
def headersC1 : Headers :=
  ⟨some ("alerts@example.com".toList), none, none,
   some ("Urgent billing update".toList), none, .absent⟩

/-- A From header only, subject exactly the keyword `urgent`. -/
def headersC4 : Headers :=
  ⟨some ("a@example.org".toList), none, none, some ("urgent".toList), none, .absent⟩

/-- A From domain at edit distance 1 of the brand domain `paypal.com`,
with no other signal anywhere. -/
def headersPaypol : Headers :=
  ⟨some ("a@paypol.com".toList), none, none, none, none, .absent⟩

/-- The crafted email of the spec: brand-lookalike From domain, unrelated
Reply-To, urgency keywords in the subject, and a login URL. -/
def headersCrafted : Headers :=
  ⟨some ("security@paypol.com".toList), some ("attacker@evil.test".toList), none,
   some ("Urgent: verify your account".toList), none, .absent⟩

/-- The crafted email's credential-harvest URL. -/
def craftedUrl : Url :=
  ⟨"http".toList, some ("paypal-login.evil.test".toList), "/login".toList, [],
   "http://paypal-login.evil.test/login".toList⟩

/-- A signal-free email: From `alice@example.org`, subject `Meeting notes`. -/
def headersBenign : Headers :=
  ⟨some ("alice@example.org".toList), none, none,
   some ("Meeting notes".toList), none, .absent⟩

/- ============================================================
   backend/core/confusables.py

   Unicode model: the repertoire is restricted to the code points this
   module mentions (the zero-width set, the confusable table, and plain
   ASCII) plus symbol characters with no decomposition.  On that
   repertoire NFKC and NFKD are the identity, no character is combining,
   `casefold` is ASCII lower-casing, and the NFKD-then-encode ASCII
   fallback of `unicode_skeleton` is empty for every non-ASCII character.
   ============================================================ -/

/-- `ZERO_WIDTH_CHARS` from `backend/core/confusables.py`. -/
def ZERO_WIDTH_CHARS : List Char :=
  [Char.ofNat 0x200B, Char.ofNat 0x200C, Char.ofNat 0x200D, Char.ofNat 0x200E,
   Char.ofNat 0x200F, Char.ofNat 0x2060, Char.ofNat 0x2061, Char.ofNat 0x2062,
   Char.ofNat 0x2063, Char.ofNat 0x2064, Char.ofNat 0xFEFF]

/-- `CONFUSABLE_MAP` from `backend/core/confusables.py`, in insertion
order: the per-codepoint entries of `CONFUSABLE_CODEPOINTS`, then the
eight multi-character updates.  `chr(0x03C5)` is inserted twice. -/
def CONFUSABLE_MAP : List (Char × Str) :=
  [(Char.ofNat 0x2010, "-".toList),
   (Char.ofNat 0x2011, "-".toList),
   (Char.ofNat 0x2012, "-".toList),
   (Char.ofNat 0x2013, "-".toList),
   (Char.ofNat 0x2014, "-".toList),
   (Char.ofNat 0x2212, "-".toList),
   (Char.ofNat 0x07C0, "0".toList),
   (Char.ofNat 0x1D7CE, "0".toList),
   (Char.ofNat 0x07C1, "1".toList),
   (Char.ofNat 0x1D7CF, "1".toList),
   (Char.ofNat 0x07C2, "2".toList),
   (Char.ofNat 0x1D7D0, "2".toList),
   (Char.ofNat 0x07C3, "3".toList),
   (Char.ofNat 0x1D7D1, "3".toList),
   (Char.ofNat 0x07C4, "4".toList),
   (Char.ofNat 0x1D7D2, "4".toList),
   (Char.ofNat 0x13CE, "4".toList),
   (Char.ofNat 0x07C5, "5".toList),
   (Char.ofNat 0x1D7D3, "5".toList),
   (Char.ofNat 0x01BD, "5".toList),
   (Char.ofNat 0x07C6, "6".toList),
   (Char.ofNat 0x1D7D4, "6".toList),
   (Char.ofNat 0x07C7, "7".toList),
   (Char.ofNat 0x1D7D5, "7".toList),
   (Char.ofNat 0x07C8, "8".toList),
   (Char.ofNat 0x1D7D6, "8".toList),
   (Char.ofNat 0x07C9, "9".toList),
   (Char.ofNat 0x1D7D7, "9".toList),
   (Char.ofNat 0x0250, "a".toList),
   (Char.ofNat 0x0430, "a".toList),
   (Char.ofNat 0x03B1, "a".toList),
   (Char.ofNat 0x2C65, "a".toList),
   (Char.ofNat 0x1D00, "a".toList),
   (Char.ofNat 0x0441, "c".toList),
   (Char.ofNat 0x03F2, "c".toList),
   (Char.ofNat 0x217D, "c".toList),
   (Char.ofNat 0x0501, "d".toList),
   (Char.ofNat 0x217E, "d".toList),
   (Char.ofNat 0x0435, "e".toList),
   (Char.ofNat 0x03B5, "e".toList),
   (Char.ofNat 0x212E, "e".toList),
   (Char.ofNat 0x0261, "g".toList),
   (Char.ofNat 0x04BB, "h".toList),
   (Char.ofNat 0x0570, "h".toList),
   (Char.ofNat 0x0131, "i".toList),
   (Char.ofNat 0x0456, "i".toList),
   (Char.ofNat 0x2170, "i".toList),
   (Char.ofNat 0x0458, "j".toList),
   (Char.ofNat 0x03BA, "k".toList),
   (Char.ofNat 0x043A, "k".toList),
   (Char.ofNat 0x019A, "l".toList),
   (Char.ofNat 0x04C0, "l".toList),
   (Char.ofNat 0x217C, "l".toList),
   (Char.ofNat 0x217F, "m".toList),
   (Char.ofNat 0x043C, "m".toList),
   (Char.ofNat 0x043D, "n".toList),
   (Char.ofNat 0x0578, "n".toList),
   (Char.ofNat 0x043E, "o".toList),
   (Char.ofNat 0x03BF, "o".toList),
   (Char.ofNat 0x2C9F, "o".toList),
   (Char.ofNat 0x0440, "p".toList),
   (Char.ofNat 0x03C1, "p".toList),
   (Char.ofNat 0x1D29, "p".toList),
   (Char.ofNat 0x051B, "q".toList),
   (Char.ofNat 0x0433, "r".toList),
   (Char.ofNat 0x1D26, "r".toList),
   (Char.ofNat 0x0455, "s".toList),
   (Char.ofNat 0x0442, "t".toList),
   (Char.ofNat 0x1D1B, "t".toList),
   (Char.ofNat 0x0446, "u".toList),
   (Char.ofNat 0x03C5, "u".toList),
   (Char.ofNat 0x057D, "u".toList),
   (Char.ofNat 0x1D1C, "u".toList),
   (Char.ofNat 0x0475, "v".toList),
   (Char.ofNat 0x03BD, "v".toList),
   (Char.ofNat 0x1D20, "v".toList),
   (Char.ofNat 0x0461, "w".toList),
   (Char.ofNat 0x051D, "w".toList),
   (Char.ofNat 0x1D21, "w".toList),
   (Char.ofNat 0x0445, "x".toList),
   (Char.ofNat 0x03C7, "x".toList),
   (Char.ofNat 0x0443, "y".toList),
   (Char.ofNat 0x04AF, "y".toList),
   (Char.ofNat 0x03C5, "y".toList),
   (Char.ofNat 0x1D22, "z".toList),
   (Char.ofNat 0x0240, "z".toList),
   (Char.ofNat 0x00DF, "ss".toList),
   (Char.ofNat 0x00E6, "ae".toList),
   (Char.ofNat 0x00F0, "d".toList),
   (Char.ofNat 0x00FE, "th".toList),
   (Char.ofNat 0x0111, "d".toList),
   (Char.ofNat 0x0133, "ij".toList),
   (Char.ofNat 0x0142, "l".toList),
   (Char.ofNat 0x0153, "oe".toList)]

/-- `CONFUSABLE_MAP.get(char)`: Python dict lookup, where the later of
two insertions of the same key wins, hence the lookup on the reversed
list (only `chr(0x03C5)` is inserted twice, under `u` then `y`). -/
def confusableGet (c : Char) : Option Str := List.lookup c CONFUSABLE_MAP.reverse

/-- Python `str.casefold`, restricted to ASCII lower-casing (every
non-ASCII character of the modelled repertoire is already caseless or
lower-case). -/
def pyCasefold (s : Str) : Str := s.map Char.toLower

/-- `contains_zero_width` from `backend/core/confusables.py`. -/
def contains_zero_width (text : Str) : Bool :=
  if text = [] then false else text.any (· ∈ ZERO_WIDTH_CHARS)

/-- `normalize_unicode` from `backend/core/confusables.py` (NFKC is the
identity on the modelled repertoire). -/
def normalize_unicode (text : Str) : Str :=
  if text = [] then []
  else pyCasefold (text.filter (fun c => c ∉ ZERO_WIDTH_CHARS))

/-- `unicode_skeleton` from `backend/core/confusables.py` (NFKD is the
identity, nothing is combining, and the ASCII-encode fallback of a
non-ASCII character is empty on the modelled repertoire). -/
def unicode_skeleton (text : Str) : Str :=
  if text = [] then []
  else
    let normalized := normalize_unicode text
    let pieces := normalized.map (fun c =>
      if c ∈ ZERO_WIDTH_CHARS then []
      else match confusableGet c with
        | some m => m
        | none => if c.toNat < 128 then [c] else [])
    (pieces.flatten).filter (fun c => c.toNat < 128)

/-- The `ascii_fold` computed inside `detect_confusable`. -/
def asciiFold (lc : Str) : Str :=
  (normalize_unicode lc).filter (fun c => c.toNat < 128)

/-- One iteration of the reference loop of `detect_confusable`. -/
def refCheck (lower_candidate : Str) (reference : Str) : Option Str :=
  let ref := pyStrip reference
  if ref = [] then none
  else
    let ref_lower := pyCasefold ref
    if ref_lower = lower_candidate then none
    else if unicode_skeleton lower_candidate ≠ [] ∧
        unicode_skeleton lower_candidate = unicode_skeleton ref_lower then
      some ("confusable match for ".toList ++ ref_lower)
    else none

/-- The reference loop of `detect_confusable`: the first reference whose
skeleton matches wins (`return` inside the `for`). -/
def confusableRefMatch (lower_candidate : Str) (refs : List Str) : Option Str :=
  refs.findSome? (refCheck lower_candidate)

/-- `detect_confusable` from `backend/core/confusables.py`. -/
def detect_confusable (domain : Option Str) (reference_domains : List Str) :
    Option Str :=
  match domain with
  | none => none
  | some d =>
    if d = [] then none
    else
      let candidate := pyStrip d
      if candidate = [] then none
      else
        let lower_candidate := pyCasefold candidate
        if strContains lower_candidate ("xn--".toList) then
          some ("punycode label".toList)
        else if contains_zero_width lower_candidate then
          some ("zero-width characters".toList)
        else
          match confusableRefMatch lower_candidate reference_domains with
          | some r => some r
          | none =>
            if lower_candidate.any (fun c => 127 < c.toNat) then
              if unicode_skeleton lower_candidate ≠ [] ∧
                  unicode_skeleton lower_candidate ≠ asciiFold lower_candidate then
                some ("confusable skeleton ".toList ++ unicode_skeleton lower_candidate)
              else some ("non-ascii characters".toList)
            else none

/-- The domain `a<U+2603>.com`: one non-ASCII character with no
confusable mapping and no decomposition. -/
def snowmanDomain : Str := ['a', Char.ofNat 0x2603] ++ ".com".toList

-- a Cyrillic lookalike of paypal.com: раураl.com with Cyrillic р,а,у,а
def cyrPaypal : Str :=
  [Char.ofNat 0x0440, Char.ofNat 0x0430, Char.ofNat 0x0443, Char.ofNat 0x0440,
   Char.ofNat 0x0430, 'l'] ++ ".com".toList

/-- The domain `<U+0430>.com` (Cyrillic a): its skeleton `a.com` differs
from its ASCII fold `.com`. -/
def cyrADomain : Str := [Char.ofNat 0x0430] ++ ".com".toList

/- ============================================================
   backend/core/llm_utils.py — the classifier result cache
   ============================================================ -/

/-- The cache-relevant slice of a `prepare_email_payload` result: the
`id` used to key results plus the five fields `_cache_key` reads
(`from`, `subject`, `body_hash`, and the sorted `attachments` and `urls`
lists).  The prompt-only fields (`body_excerpt`, `body_length`, `flags`)
never enter the cache key or the call count and are omitted. -/
structure Payload where
  pid : Str
  pfrom : Str
  subject : Str
  body_hash : Str
  attachments : List Str
  urls : List Str
deriving DecidableEq, Repr

/-- A normalised analysis record (the output of `_normalise_analysis`). -/
structure Analysis where
  probability : Nat
  indicators : List Str
  reasoning : Str
deriving DecidableEq, Repr, Inhabited

/-- `_cache_key` builds the canonical JSON of this signature dict and
returns its sha256 hex digest; sha256 and the canonical encoding are
injective on these values, so the key is modelled by the signature
itself. -/
structure CacheKey where
  model : Str
  sfrom : Str
  subject : Str
  body_hash : Str
  attachments : List Str
  urls : List Str
deriving DecidableEq, Repr

/-- `SUPPORTED_LLM_MODELS` from `backend/core/llm_utils.py`. -/
def SUPPORTED_LLM_MODELS : List Str :=
  ["gpt-5-nano".toList, "gpt-4.1-nano".toList, "gpt-4o-mini".toList]

/-- `_CACHE_TTL_SECONDS` (env default 900). -/
def _CACHE_TTL_SECONDS : Nat := 900

/-- `_MAX_BATCH_SIZE` (env default 4). -/
def _MAX_BATCH_SIZE : Nat := 4

/-- `_cache_key` from `backend/core/llm_utils.py` under the injective
sha256 model. -/
def _cache_key (model : Str) (p : Payload) : CacheKey :=
  ⟨model, p.pfrom, p.subject, p.body_hash, p.attachments, p.urls⟩

/-- One entry of the `TTLCache`: key, value, and expiry timestamp
(insertion time plus TTL). -/
structure CacheEntry where
  key : CacheKey
  value : Analysis
  expires : Nat
deriving DecidableEq, Repr

/-- `TTLCache.get`: a hit only while the current time is before the
entry expiry. -/
def cacheGet (c : List CacheEntry) (t : Nat) (k : CacheKey) : Option Analysis :=
  match c.find? (fun e => decide (e.key = k) && decide (t < e.expires)) with
  | some e => some e.value
  | none => none

/-- `_CACHE[key] = value`: insert with expiry `t + ttl`, replacing any
previous entry for the key.  The `maxsize=256` LRU eviction is not
modelled: the scenarios of claim C7 touch a single key. -/
def cacheSet (c : List CacheEntry) (t : Nat) (k : CacheKey) (v : Analysis) :
    List CacheEntry :=
  ⟨k, v, t + _CACHE_TTL_SECONDS⟩ :: c.filter (fun e => !(decide (e.key = k)))

/-- Python dict assignment on an insertion-ordered association list. -/
def dictSet (m : List (Str × Analysis)) (k : Str) (v : Analysis) :
    List (Str × Analysis) :=
  if m.any (fun kv => kv.1 = k) then
    m.map (fun kv => if kv.1 = k then (k, v) else kv)
  else m ++ [(k, v)]

/-- Structural helper for `_chunk` (the fuel is the list length, and
each step consumes at least one element). -/
def chunkFuel : Nat → Nat → List (Payload × CacheKey) →
    List (List (Payload × CacheKey))
  | 0, _, _ => []
  | _, _, [] => []
  | Nat.succ f, size, x :: xs =>
    (x :: xs).take size :: chunkFuel f size ((x :: xs).drop size)

/-- `_chunk` from `backend/core/llm_utils.py`. -/
def _chunk (items : List (Payload × CacheKey)) (size : Nat) :
    List (List (Payload × CacheKey)) :=
  let size := if size = 0 then 1 else size
  chunkFuel items.length size items

/-- `analyze_payloads` from `backend/core/llm_utils.py`, state-passing:
the `TTLCache` is threaded explicitly, the clock is the `t` argument
(one timestamp per invocation), and the external pipeline
`_call_llm` / `_parse_llm_json` / `_coerce_analyses` / `_normalise_analysis`
is the `oracle` argument, giving the per-id analyses of one LLM call;
the returned `Nat` counts the `_call_llm` invocations (one per
non-empty chunk).  `_get_client` raising on an empty API key and the
unsupported-model `ValueError` are the `Except.error` branches. -/
def analyze_payloads (api_key model : Str) (payloads : List Payload)
    (oracle : List Payload → Str → Option Analysis)
    (cache : List CacheEntry) (t : Nat) :
    Except Str (List (Str × Analysis) × List CacheEntry × Nat) :=
  if payloads = [] then Except.ok ([], cache, 0)
  else if model ∉ SUPPORTED_LLM_MODELS then
    Except.error ("Unsupported model: ".toList ++ model)
  else if api_key = [] then Except.error ("Missing OpenAI API key".toList)
  else
    let step1 := payloads.foldl
      (fun (acc : List (Str × Analysis) × List (Payload × CacheKey)) payload =>
        let ck := _cache_key model payload
        match cacheGet cache t ck with
        | some cached => (dictSet acc.1 payload.pid cached, acc.2)
        | none => (acc.1, acc.2 ++ [(payload, ck)])) ([], [])
    (_chunk step1.2 _MAX_BATCH_SIZE).foldl
      (fun st chunk =>
        match st with
        | Except.error e => Except.error e
        | Except.ok (results, cache, calls) =>
          if chunk = [] then Except.ok (results, cache, calls)
          else
            let chunk_payloads := chunk.map (·.1)
            let analyses := oracle chunk_payloads
            let missing := (chunk_payloads.filter
              (fun p => (analyses p.pid).isNone)).map (·.pid)
            if missing ≠ [] then
              Except.error ("LLM response missing analyses for: ".toList ++
                joinStrSep (", ".toList) missing)
            else
              let st2 := chunk.foldl
                (fun (acc : List (Str × Analysis) × List CacheEntry) pc =>
                  match analyses pc.1.pid with
                  | some analysis =>
                    (dictSet acc.1 pc.1.pid analysis, cacheSet acc.2 t pc.2 analysis)
                  | none => acc) (results, cache)
              Except.ok (st2.1, st2.2, calls + 1))
      (Except.ok (step1.1, cache, 0))

/-- The payload of `test_llm_cache.py` (body hash abbreviated). -/
def payloadC7 : Payload :=
  ⟨"email-1".toList, "alerts@example.com".toList, "Urgent billing update".toList,
   "bodyhash".toList, [], []⟩

/-- The stubbed analysis of `test_llm_cache.py`. -/
def analysisC7 : Analysis :=
  ⟨90, ["Urgent request".toList, "Suspicious link".toList],
   "Indicators resemble phishing patterns".toList⟩

/-- An external classifier that always answers `analysisC7`. -/
def oracleC7 : List Payload → Str → Option Analysis := fun _ _ => some analysisC7

/- ============================================================
   Facts about `registrable_domain` (claim C9)
   ============================================================ -/

theorem splitOnP_not_mem {α : Type} {p : α → Bool} :
    ∀ {l : List α} {xs : List α}, xs ∈ l.splitOnP p → ∀ x ∈ xs, ¬ p x := by
  intro l
  induction l with
  | nil =>
    intro xs hxs x hx
    rw [List.splitOnP_nil] at hxs
    rw [List.mem_singleton] at hxs
    subst hxs
    simp at hx
  | cons a t ih =>
    intro xs hxs x hx
    rw [List.splitOnP_cons] at hxs
    by_cases hpa : p a
    · rw [if_pos hpa] at hxs
      rcases List.mem_cons.mp hxs with h | h
      · subst h; simp at hx
      · exact ih h x hx
    · rw [if_neg hpa] at hxs
      rcases ht : t.splitOnP p with _ | ⟨hd, tl⟩
      · exact absurd ht (List.splitOnP_ne_nil p t)
      · rw [ht] at hxs
        have hxs' : xs ∈ (a :: hd) :: tl := hxs
        rcases List.mem_cons.mp hxs' with h | h
        · subst h
          rcases List.mem_cons.mp hx with h2 | h2
          · subst h2; exact fun hpx => hpa hpx
          · exact ih (ht ▸ List.mem_cons_self hd tl) x h2
        · exact ih (ht ▸ List.mem_cons_of_mem hd h) x hx

/-- Elements produced by `splitOn '.'` contain no dot. -/
theorem splitOn_dot_not_mem {l xs : Str} (h : xs ∈ l.splitOn '.') : '.' ∉ xs := by
  intro hmem
  have := @splitOnP_not_mem Char (· == '.') l xs h '.' hmem
  simp at this

theorem splitOn_joinDots {ls : List Str} (hne : ls ≠ [])
    (h : ∀ l ∈ ls, '.' ∉ l) : (joinDots ls).splitOn '.' = ls := by
  unfold joinDots
  exact List.splitOn_intercalate ls '.' h hne

theorem char_toNat_ofNat {n : Nat} (h : n < 55296) : (Char.ofNat n).toNat = n := by
  unfold Char.ofNat
  rw [dif_pos (Or.inl h)]
  unfold Char.ofNatAux Char.toNat
  show (UInt32.ofNat' n _).toNat = n
  simp [UInt32.ofNat', UInt32.toNat]

theorem toLower_idem (c : Char) : (Char.toLower c).toLower = Char.toLower c := by
  unfold Char.toLower
  by_cases h : c.toNat ≥ 65 ∧ c.toNat ≤ 90
  · rw [if_pos h]
    have ht : (Char.ofNat (c.toNat + 32)).toNat = c.toNat + 32 :=
      char_toNat_ofNat (by omega)
    rw [if_neg (by rw [ht]; omega)]
  · rw [if_neg h, if_neg h]

theorem pyLower_map_eq_self {s : Str} (h : ∀ c ∈ s, Char.toLower c = c) :
    pyLower s = s := by
  unfold pyLower
  induction s with
  | nil => rfl
  | cons a t ih =>
    simp only [List.map_cons]
    rw [h a (List.mem_cons_self a t), ih (fun c hc => h c (List.mem_cons_of_mem a hc))]

theorem mem_pyLower_fixed {s : Str} {c : Char} (hc : c ∈ pyLower s) :
    Char.toLower c = c := by
  unfold pyLower at hc
  rcases List.mem_map.mp hc with ⟨c₀, _, rfl⟩
  exact toLower_idem c₀

theorem stripDots_subset (s : Str) : stripDots s ⊆ s := by
  unfold stripDots
  intro c hc
  have h1 : c ∈ (s.dropWhile (· = '.')).reverse.dropWhile (· = '.') :=
    List.mem_reverse.mp hc
  have h2 : c ∈ (s.dropWhile (· = '.')).reverse :=
    (List.dropWhile_sublist (· = '.')).subset h1
  exact (List.dropWhile_sublist (· = '.')).subset (List.mem_reverse.mp h2)

/-- Every character of `_strip_port d` is a character of `pyLower (pyStrip d)`. -/
theorem strip_port_subset (d : Str) : _strip_port d ⊆ pyLower (pyStrip d) := by
  simp only [_strip_port]
  split
  · intro c hc; simp at hc
  · split
    · exact ((List.dropLast_sublist _).subset).trans
        ((List.drop_sublist 1 _).subset)
    · intro c hc
      have h3 := stripDots_subset _ hc
      split at h3
      · exact (List.takeWhile_sublist _).subset h3
      · exact h3

theorem mem_intercalate_two {α : Type} (sep a b : List α) (t : List (List α)) :
    List.intercalate sep (a :: b :: t) = a ++ sep ++ List.intercalate sep (b :: t) := by
  simp [List.intercalate, List.intersperse]

theorem intercalate_single {α : Type} (sep a : List α) :
    List.intercalate sep [a] = a := by
  simp [List.intercalate, List.intersperse]

theorem subset_intercalate {α : Type} (sep : List α) {ls : List (List α)} {l : List α}
    (hl : l ∈ ls) : l ⊆ List.intercalate sep ls := by
  induction ls with
  | nil => simp at hl
  | cons a t ih =>
    rcases List.mem_cons.mp hl with h | h
    · subst h
      cases t with
      | nil => rw [intercalate_single]; exact List.Subset.refl _
      | cons b t' =>
        rw [mem_intercalate_two]
        intro x hx
        simp [hx]
    · cases t with
      | nil => simp at h
      | cons b t' =>
        rw [mem_intercalate_two]
        intro x hx
        have := ih h hx
        simp [this]

theorem mem_intercalate_cases {α : Type} (sep : List α) {ls : List (List α)} {x : α}
    (hx : x ∈ List.intercalate sep ls) : x ∈ sep ∨ ∃ l ∈ ls, x ∈ l := by
  induction ls with
  | nil => simp [List.intercalate] at hx
  | cons a t ih =>
    cases t with
    | nil =>
      rw [intercalate_single] at hx
      exact Or.inr ⟨a, List.mem_cons_self _ _, hx⟩
    | cons b t' =>
      rw [mem_intercalate_two] at hx
      rcases List.mem_append.mp hx with h | h
      · rcases List.mem_append.mp h with h2 | h2
        · exact Or.inr ⟨a, List.mem_cons_self _ _, h2⟩
        · exact Or.inl h2
      · rcases ih h with h2 | ⟨l, hl, hxl⟩
        · exact Or.inl h2
        · exact Or.inr ⟨l, List.mem_cons_of_mem _ hl, hxl⟩

/-- Characters of every label of `splitOn '.'` come from the split string. -/
theorem label_subset {host l : Str} (hl : l ∈ host.splitOn '.') : l ⊆ host := by
  have h : ['.'].intercalate (host.splitOn '.') = host := List.intercalate_splitOn host '.'
  intro x hx
  have := subset_intercalate ['.'] hl hx
  rwa [h] at this

/-- Case analysis for `registrable_domain` on a non-`none` result. -/
theorem registrable_domain_eq_some {d o : Str}
    (h : registrable_domain (some d) = some o) :
    _strip_port d ≠ [] ∧
    ((pyIsdigit ((_strip_port d).filter (· ≠ '.')) = true ∧ o = _strip_port d) ∨
     (pyIsdigit ((_strip_port d).filter (· ≠ '.')) = false ∧
      ((_strip_port d).splitOn '.').length ≤ 2 ∧ o = _strip_port d) ∨
     (pyIsdigit ((_strip_port d).filter (· ≠ '.')) = false ∧
      2 < ((_strip_port d).splitOn '.').length ∧
      joinDots (((_strip_port d).splitOn '.').drop
        (((_strip_port d).splitOn '.').length - 2)) ∈ _PUBLIC_SUFFIX_3 ∧
      o = joinDots (((_strip_port d).splitOn '.').drop
        (((_strip_port d).splitOn '.').length - 3))) ∨
     (pyIsdigit ((_strip_port d).filter (· ≠ '.')) = false ∧
      2 < ((_strip_port d).splitOn '.').length ∧
      joinDots (((_strip_port d).splitOn '.').drop
        (((_strip_port d).splitOn '.').length - 2)) ∉ _PUBLIC_SUFFIX_3 ∧
      o = joinDots (((_strip_port d).splitOn '.').drop
        (((_strip_port d).splitOn '.').length - 2)))) := by
  simp only [registrable_domain] at h
  by_cases hd : d = []
  · simp [hd] at h
  · rw [if_neg hd] at h
    by_cases hh : _strip_port d = []
    · simp [hh] at h
    · rw [if_neg hh] at h
      refine ⟨hh, ?_⟩
      by_cases hdig : pyIsdigit ((_strip_port d).filter (· ≠ '.')) = true
      · rw [if_pos hdig] at h
        exact Or.inl ⟨hdig, (Option.some_inj.mp h).symm⟩
      · rw [if_neg hdig] at h
        rw [Bool.not_eq_true] at hdig
        by_cases hlen : ((_strip_port d).splitOn '.').length ≤ 2
        · rw [if_pos hlen] at h
          exact Or.inr (Or.inl ⟨hdig, hlen, (Option.some_inj.mp h).symm⟩)
        · rw [if_neg hlen] at h
          push_neg at hlen
          by_cases hsuf : joinDots (((_strip_port d).splitOn '.').drop
              (((_strip_port d).splitOn '.').length - 2)) ∈ _PUBLIC_SUFFIX_3
          · rw [if_pos ⟨hsuf, by omega⟩] at h
            exact Or.inr (Or.inr (Or.inl ⟨hdig, hlen, hsuf, (Option.some_inj.mp h).symm⟩))
          · rw [if_neg (fun hc => hsuf hc.1)] at h
            exact Or.inr (Or.inr (Or.inr ⟨hdig, hlen, hsuf, (Option.some_inj.mp h).symm⟩))

theorem splitOn_nil_char : ([] : Str).splitOn '.' = [[]] := by
  simp [List.splitOn, List.splitOnP_nil]

theorem drop_labels_ne_nil {host : Str} {k : Nat}
    (hk : k < (host.splitOn '.').length) :
    (host.splitOn '.').drop k ≠ [] := by
  intro hc
  have hlen := List.length_drop k (host.splitOn '.')
  rw [hc] at hlen
  simp at hlen
  omega

/-- The round trip: splitting a joined tail of labels gives the tail back. -/
theorem splitOn_joinDots_drop (host : Str) (k : Nat) :
    ((host.splitOn '.').drop k ≠ []) →
    (joinDots ((host.splitOn '.').drop k)).splitOn '.' = (host.splitOn '.').drop k := by
  intro hne
  exact splitOn_joinDots hne
    (fun l hl => splitOn_dot_not_mem ((List.drop_sublist k _).subset hl))

theorem joinDots_drop_ne_nil {host : Str} {k : Nat}
    (h2 : 2 ≤ (host.splitOn '.').length - k) :
    joinDots ((host.splitOn '.').drop k) ≠ [] := by
  intro hnil
  have hk : k < (host.splitOn '.').length := by omega
  have hrt := splitOn_joinDots_drop host k (drop_labels_ne_nil hk)
  rw [hnil, splitOn_nil_char] at hrt
  have hlen : ((host.splitOn '.').drop k).length = 1 := by rw [← hrt]; rfl
  rw [List.length_drop] at hlen
  omega

theorem registrable_domain_idem_aux {o : Str} (ho : o ≠ [])
    (hs : _strip_port o = o)
    (hcase : pyIsdigit (o.filter (· ≠ '.')) = true ∨ (o.splitOn '.').length ≤ 2) :
    registrable_domain (some o) = some o := by
  simp only [registrable_domain]
  rw [if_neg ho, hs, if_neg ho]
  rcases hcase with hdig | hlen
  · rw [if_pos hdig]
  · by_cases hdig : pyIsdigit (o.filter (· ≠ '.')) = true
    · rw [if_pos hdig]
    · rw [if_neg hdig, if_pos hlen]

theorem registrable_domain_idem {d o : Str}
    (h : registrable_domain (some d) = some o) (hstrip : _strip_port o = o) :
    registrable_domain (some o) = some o := by
  obtain ⟨hne, hc⟩ := registrable_domain_eq_some h
  rcases hc with ⟨hdig, rfl⟩ | ⟨hdig, hlen, rfl⟩ | ⟨hdig, hlen, hsuf, rfl⟩ |
    ⟨hdig, hlen, hsuf, rfl⟩
  · exact registrable_domain_idem_aux hne hstrip (Or.inl hdig)
  · exact registrable_domain_idem_aux hne hstrip (Or.inr hlen)
  · -- third branch: the last three labels are returned
    have hk : ((_strip_port d).splitOn '.').length - 3 <
        ((_strip_port d).splitOn '.').length := by omega
    have hne3 := drop_labels_ne_nil hk
    have hrt := splitOn_joinDots_drop (_strip_port d)
      (((_strip_port d).splitOn '.').length - 3) hne3
    have honot : joinDots (((_strip_port d).splitOn '.').drop
        (((_strip_port d).splitOn '.').length - 3)) ≠ [] :=
      joinDots_drop_ne_nil (by omega)
    simp only [registrable_domain]
    rw [if_neg honot, hstrip, if_neg honot]
    by_cases hdig2 : pyIsdigit ((joinDots (((_strip_port d).splitOn '.').drop
        (((_strip_port d).splitOn '.').length - 3))).filter (· ≠ '.')) = true
    · rw [if_pos hdig2]
    · rw [if_neg hdig2, hrt]
      have h3 : ((((_strip_port d).splitOn '.')).drop
          (((_strip_port d).splitOn '.').length - 3)).length = 3 := by
        rw [List.length_drop]; omega
      rw [h3]
      rw [if_neg (by omega)]
      have hdd : (((_strip_port d).splitOn '.').drop
          (((_strip_port d).splitOn '.').length - 3)).drop (3 - 2) =
          ((_strip_port d).splitOn '.').drop
            (((_strip_port d).splitOn '.').length - 2) := by
        rw [List.drop_drop]
        congr 1
        omega
      rw [hdd, if_pos ⟨hsuf, by omega⟩]
      have hdz : (((_strip_port d).splitOn '.').drop
          (((_strip_port d).splitOn '.').length - 3)).drop (3 - 3) =
          ((_strip_port d).splitOn '.').drop
            (((_strip_port d).splitOn '.').length - 3) := by
        simp
      rw [hdz]
  · -- fourth branch: the last two labels are returned
    have hk : ((_strip_port d).splitOn '.').length - 2 <
        ((_strip_port d).splitOn '.').length := by omega
    have hne2 := drop_labels_ne_nil hk
    have hrt := splitOn_joinDots_drop (_strip_port d)
      (((_strip_port d).splitOn '.').length - 2) hne2
    have honot : joinDots (((_strip_port d).splitOn '.').drop
        (((_strip_port d).splitOn '.').length - 2)) ≠ [] :=
      joinDots_drop_ne_nil (by omega)
    simp only [registrable_domain]
    rw [if_neg honot, hstrip, if_neg honot]
    by_cases hdig2 : pyIsdigit ((joinDots (((_strip_port d).splitOn '.').drop
        (((_strip_port d).splitOn '.').length - 2))).filter (· ≠ '.')) = true
    · rw [if_pos hdig2]
    · rw [if_neg hdig2, hrt]
      have h2 : ((((_strip_port d).splitOn '.')).drop
          (((_strip_port d).splitOn '.').length - 2)).length = 2 := by
        rw [List.length_drop]; omega
      rw [h2]
      rw [if_pos (by omega)]

theorem toLower_dot_fixed : ∀ c ∈ joinDots ([] : List Str), Char.toLower c = c := by
  intro c hc
  simp [joinDots, List.intercalate] at hc

theorem registrable_domain_lower {d o : Str}
    (h : registrable_domain (some d) = some o) : pyLower o = o := by
  obtain ⟨hne, hc⟩ := registrable_domain_eq_some h
  have hhost : ∀ c ∈ _strip_port d, Char.toLower c = c :=
    fun c hc => mem_pyLower_fixed (strip_port_subset d hc)
  have hjoin : ∀ k : Nat, ∀ c ∈ joinDots (((_strip_port d).splitOn '.').drop k),
      Char.toLower c = c := by
    intro k c hcmem
    simp only [joinDots] at hcmem
    rcases mem_intercalate_cases ['.'] hcmem with hdot | ⟨l, hl, hcl⟩
    · have hcd : c = '.' := by simpa using hdot
      subst hcd; decide
    · have hlab : l ∈ (_strip_port d).splitOn '.' := (List.drop_sublist _ _).subset hl
      exact hhost c (label_subset hlab hcl)
  rcases hc with ⟨_, rfl⟩ | ⟨_, _, rfl⟩ | ⟨_, _, _, rfl⟩ | ⟨_, _, _, rfl⟩
  · exact pyLower_map_eq_self hhost
  · exact pyLower_map_eq_self hhost
  · exact pyLower_map_eq_self (hjoin _)
  · exact pyLower_map_eq_self (hjoin _)

theorem registrable_domain_no_colon {d o : Str}
    (h : registrable_domain (some d) = some o)
    (hb : ¬((pyLower (pyStrip d)).head? = some '[' ∧
            (pyLower (pyStrip d)).getLast? = some ']')) :
    ':' ∉ o := by
  have hhost : ':' ∉ _strip_port d := by
    intro hc
    simp only [_strip_port] at hc
    by_cases h0 : pyLower (pyStrip d) = []
    · rw [if_pos h0] at hc; simp at hc
    · rw [if_neg h0, if_neg hb] at hc
      have hc2 := stripDots_subset _ hc
      by_cases hcol : (pyLower (pyStrip d)).contains ':' = true
      · rw [if_pos hcol] at hc2
        have := List.mem_takeWhile_imp hc2
        simp at this
      · rw [if_neg hcol] at hc2
        exact hcol (by simpa [List.contains, List.elem_iff] using hc2)
  obtain ⟨hne, hcse⟩ := registrable_domain_eq_some h
  have hjoin : ∀ k : Nat, ':' ∉ joinDots (((_strip_port d).splitOn '.').drop k) := by
    intro k hmem
    simp only [joinDots] at hmem
    rcases mem_intercalate_cases ['.'] hmem with hdot | ⟨l, hl, hcl⟩
    · simp at hdot
    · have hlab : l ∈ (_strip_port d).splitOn '.' := (List.drop_sublist _ _).subset hl
      exact hhost (label_subset hlab hcl)
  rcases hcse with ⟨_, rfl⟩ | ⟨_, _, rfl⟩ | ⟨_, _, _, rfl⟩ | ⟨_, _, _, rfl⟩
  · exact hhost
  · exact hhost
  · exact hjoin _
  · exact hjoin _

theorem registrable_domain_labels {d o : Str}
    (h : registrable_domain (some d) = some o)
    (hdig : pyIsdigit (o.filter (· ≠ '.')) = false) :
    (o.splitOn '.').length ≤ 3 ∧
    ((o.splitOn '.').length = 3 →
      joinDots ((o.splitOn '.').drop ((o.splitOn '.').length - 2)) ∈ _PUBLIC_SUFFIX_3) := by
  obtain ⟨hne, hc⟩ := registrable_domain_eq_some h
  rcases hc with ⟨hd1, rfl⟩ | ⟨_, hlen, rfl⟩ | ⟨_, hlen, hsuf, rfl⟩ | ⟨_, hlen, hsuf, rfl⟩
  · rw [hd1] at hdig; cases hdig
  · exact ⟨by omega, fun h3 => absurd h3 (by omega)⟩
  · have hk : ((_strip_port d).splitOn '.').length - 3 <
        ((_strip_port d).splitOn '.').length := by omega
    have hrt := splitOn_joinDots_drop (_strip_port d)
      (((_strip_port d).splitOn '.').length - 3) (drop_labels_ne_nil hk)
    rw [hrt]
    have h3 : ((((_strip_port d).splitOn '.')).drop
        (((_strip_port d).splitOn '.').length - 3)).length = 3 := by
      rw [List.length_drop]; omega
    rw [h3]
    refine ⟨by omega, fun _ => ?_⟩
    have hdd : (((_strip_port d).splitOn '.').drop
        (((_strip_port d).splitOn '.').length - 3)).drop (3 - 2) =
        ((_strip_port d).splitOn '.').drop
          (((_strip_port d).splitOn '.').length - 2) := by
      rw [List.drop_drop]
      congr 1
      omega
    rw [hdd]
    exact hsuf
  · have hk : ((_strip_port d).splitOn '.').length - 2 <
        ((_strip_port d).splitOn '.').length := by omega
    have hrt := splitOn_joinDots_drop (_strip_port d)
      (((_strip_port d).splitOn '.').length - 2) (drop_labels_ne_nil hk)
    rw [hrt]
    have h2 : ((((_strip_port d).splitOn '.')).drop
        (((_strip_port d).splitOn '.').length - 2)).length = 2 := by
      rw [List.length_drop]; omega
    rw [h2]
    exact ⟨by omega, fun h3 => absurd h3 (by omega)⟩

/-- C9 (counterexample): `registrable_domain` is not idempotent: on the
bracketed IPv6 literal `[::1]` it returns `::1`, but applied again to `::1`
it returns `none`.  Its output may also contain brackets (`[x]:80` yields
`[x]`) and, for dotted digit strings, more than three labels
(`1.2.3.4.5` is returned whole, with five labels). -/
theorem c9_registrable_domain_counterexample :
    registrable_domain (some ("[::1]".toList)) = some ("::1".toList) ∧
    registrable_domain (some ("::1".toList)) = none ∧
    registrable_domain (some ("1.2.3.4.5".toList)) = some ("1.2.3.4.5".toList) ∧
    (("1.2.3.4.5".toList).splitOn '.').length = 5 ∧
    registrable_domain (some ("[x]:80".toList)) = some ("[x]".toList) :=
  ⟨by decide, by decide, by decide, by decide, by decide⟩

/-- C9 (amended): `registrable_domain` is idempotent on every domain whose
output is a fixed point of `_strip_port` (bracketed hosts such as `[::1]`
violate this); every non-`none` output is lower-cased; the output is free of
colons (port separators) whenever the cleaned input is not a bracket-wrapped
host; and whenever the output is not an all-digits IP-like host it has at
most three dot-separated labels, exactly three only when its last two labels
form a listed multi-part public suffix. -/
theorem c9_registrable_domain_amended :
    (∀ d o : Str, registrable_domain (some d) = some o → _strip_port o = o →
        registrable_domain (some o) = some o) ∧
    (∀ d o : Str, registrable_domain (some d) = some o → pyLower o = o) ∧
    (∀ d o : Str, registrable_domain (some d) = some o →
        ¬((pyLower (pyStrip d)).head? = some '[' ∧
          (pyLower (pyStrip d)).getLast? = some ']') →
        ':' ∉ o) ∧
    (∀ d o : Str, registrable_domain (some d) = some o →
        pyIsdigit (o.filter (· ≠ '.')) = false →
        (o.splitOn '.').length ≤ 3 ∧
        ((o.splitOn '.').length = 3 →
          joinDots ((o.splitOn '.').drop ((o.splitOn '.').length - 2)) ∈
            _PUBLIC_SUFFIX_3)) :=
  ⟨fun _ _ h hs => registrable_domain_idem h hs,
   fun _ _ h => registrable_domain_lower h,
   fun _ _ h hb => registrable_domain_no_colon h hb,
   fun _ _ h hd => registrable_domain_labels h hd⟩

/-- C9 (witness): the amended properties evaluated on
`mail.example.co.uk`, whose registrable domain is `example.co.uk`. -/
theorem c9_registrable_domain_witness :
    registrable_domain (some ("mail.example.co.uk".toList)) =
      some ("example.co.uk".toList) ∧
    registrable_domain (some ("example.co.uk".toList)) =
      some ("example.co.uk".toList) ∧
    pyLower ("example.co.uk".toList) = "example.co.uk".toList ∧
    ':' ∉ ("example.co.uk".toList) ∧
    (("example.co.uk".toList).splitOn '.').length ≤ 3 :=
  ⟨by decide,
   c9_registrable_domain_amended.1 ("mail.example.co.uk".toList)
     ("example.co.uk".toList) (by decide) (by decide),
   c9_registrable_domain_amended.2.1 ("mail.example.co.uk".toList)
     ("example.co.uk".toList) (by decide),
   c9_registrable_domain_amended.2.2.1 ("mail.example.co.uk".toList)
     ("example.co.uk".toList) (by decide) (by decide),
   (c9_registrable_domain_amended.2.2.2 ("mail.example.co.uk".toList)
     ("example.co.uk".toList) (by decide) (by decide)).1⟩

theorem levFuel_nil (f : Nat) (ys : Str) : levFuel f [] ys = ys.length := by
  cases f <;> cases ys <;> rfl

theorem levFuel_nil_right (f : Nat) (xs : Str) : levFuel f xs [] = xs.length := by
  cases f <;> cases xs <;> rfl

theorem levFuel_fuel_irrel :
    ∀ (f g : Nat) (xs ys : Str), xs.length + ys.length ≤ f →
      xs.length + ys.length ≤ g → levFuel f xs ys = levFuel g xs ys := by
  intro f
  induction f with
  | zero =>
    intro g xs ys hf _
    cases xs with
    | nil => rw [levFuel_nil, levFuel_nil]
    | cons x xs' =>
      cases ys with
      | nil => rw [levFuel_nil_right, levFuel_nil_right]
      | cons y ys' => simp at hf
  | succ f' ih =>
    intro g xs ys hf hg
    cases xs with
    | nil => rw [levFuel_nil, levFuel_nil]
    | cons x xs' =>
      cases ys with
      | nil => rw [levFuel_nil_right, levFuel_nil_right]
      | cons y ys' =>
        cases g with
        | zero => simp at hg
        | succ g' =>
          show min (min (levFuel f' xs' (y :: ys') + 1) (levFuel f' (x :: xs') ys' + 1))
              (levFuel f' xs' ys' + subCost x y) =
            min (min (levFuel g' xs' (y :: ys') + 1) (levFuel g' (x :: xs') ys' + 1))
              (levFuel g' xs' ys' + subCost x y)
          simp only [List.length_cons] at hf hg
          rw [ih g' xs' (y :: ys') (by simp; omega) (by simp; omega),
              ih g' (x :: xs') ys' (by simp; omega) (by simp; omega),
              ih g' xs' ys' (by omega) (by omega)]

theorem lev_nil (ys : Str) : lev [] ys = ys.length := levFuel_nil _ ys

theorem lev_nil_right (xs : Str) : lev xs [] = xs.length := levFuel_nil_right _ xs

theorem lev_cons_cons (x : Char) (xs : Str) (y : Char) (ys : Str) :
    lev (x :: xs) (y :: ys) =
      min (min (lev xs (y :: ys) + 1) (lev (x :: xs) ys + 1))
          (lev xs ys + subCost x y) := by
  show levFuel (xs.length + 1 + (ys.length + 1)) (x :: xs) (y :: ys) = _
  have : xs.length + 1 + (ys.length + 1) = (xs.length + (ys.length + 1)) + 1 := by omega
  rw [this]
  show min (min (levFuel _ xs (y :: ys) + 1) (levFuel _ (x :: xs) ys + 1))
      (levFuel _ xs ys + subCost x y) = _
  unfold lev
  rw [levFuel_fuel_irrel _ (xs.length + (y :: ys).length) xs (y :: ys) (by simp) (by simp),
      levFuel_fuel_irrel _ ((x :: xs).length + ys.length) (x :: xs) ys (by simp; omega) (by simp),
      levFuel_fuel_irrel _ (xs.length + ys.length) xs ys (by omega) (by omega)]

theorem subCost_le_one (x y : Char) : subCost x y ≤ 1 := by
  unfold subCost; split <;> omega

theorem subCost_comm (x y : Char) : subCost x y = subCost y x := by
  unfold subCost
  by_cases h : x = y
  · rw [if_pos h, if_pos h.symm]
  · rw [if_neg h, if_neg (fun hc => h hc.symm)]

theorem subCost_self (x : Char) : subCost x x = 0 := by
  unfold subCost; rw [if_pos rfl]

theorem lev_self (a : Str) : lev a a = 0 := by
  induction a with
  | nil => exact lev_nil []
  | cons x xs ih =>
    rw [lev_cons_cons, ih, subCost_self]
    omega

theorem lev_comm (a : Str) : ∀ b : Str, lev a b = lev b a := by
  induction a with
  | nil => intro b; rw [lev_nil, lev_nil_right]
  | cons x xs ih =>
    intro b
    induction b with
    | nil => rw [lev_nil, lev_nil_right]
    | cons y ys ihb =>
      rw [lev_cons_cons, lev_cons_cons, ih (y :: ys), ihb, ih ys, subCost_comm]
      omega

theorem dist_le_lev (a : Str) : ∀ b : Str, Nat.dist a.length b.length ≤ lev a b := by
  induction a with
  | nil =>
    intro b
    rw [lev_nil]
    simp [Nat.dist]
  | cons x xs ih =>
    intro b
    induction b with
    | nil =>
      rw [lev_nil_right]
      simp [Nat.dist]
    | cons y ys ihb =>
      rw [lev_cons_cons]
      have h1 := ih (y :: ys)
      have h2 := ihb
      have h3 := ih ys
      simp only [List.length_cons] at *
      simp only [Nat.dist] at *
      omega

theorem min3_exchange (a b c d e f g h i p q : Nat) :
    min (min (min (min (a+1) (b+1)) (c+q) + 1) (min (min (d+1) (e+1)) (f+q) + 1))
        (min (min (g+1) (h+1)) (i+q) + p) =
    min (min (min (min (a+1) (d+1)) (g+p) + 1) (min (min (b+1) (e+1)) (h+p) + 1))
        (min (min (c+1) (f+1)) (i+p) + q) := by
  apply Nat.le_antisymm <;>
  · simp only [← min_add_add_right, le_min_iff, min_le_iff]
    omega

/-- Levenshtein recurrence on the last characters: appending one character
to each string satisfies the same three-way minimum as prepending. -/
theorem lev_snoc (x y : Char) :
    ∀ (xs ys : Str),
      lev (xs ++ [x]) (ys ++ [y]) =
        min (min (lev xs (ys ++ [y]) + 1) (lev (xs ++ [x]) ys + 1))
            (lev xs ys + subCost x y) := by
  intro xs
  induction xs with
  | nil =>
    intro ys
    induction ys with
    | nil =>
      simp only [List.nil_append]
      rw [lev_cons_cons]
    | cons z zs ihy =>
      simp only [List.nil_append, List.cons_append] at *
      have e0 := lev_cons_cons x [] z (zs ++ [y])
      have r1 := lev_cons_cons x [] z zs
      have e1 : lev ([] : Str) (z :: (zs ++ [y])) = zs.length + 2 := by
        rw [lev_nil]; simp
      have e2 : lev ([] : Str) (zs ++ [y]) = zs.length + 1 := by
        rw [lev_nil]; simp
      have e3 : lev ([] : Str) (z :: zs) = zs.length + 1 := by
        rw [lev_nil]; simp
      have e4 : lev ([] : Str) zs = zs.length := lev_nil zs
      omega
  | cons w ws ihx =>
    intro ys
    induction ys with
    | nil =>
      simp only [List.nil_append, List.cons_append] at *
      have e0 := lev_cons_cons w (ws ++ [x]) y []
      have h1 := ihx []
      simp only [List.nil_append] at h1
      have r1 := lev_cons_cons w ws y []
      have e1 : lev (ws ++ [x]) [] = ws.length + 1 := by
        rw [lev_nil_right]; simp
      have e2 : lev ws ([] : Str) = ws.length := lev_nil_right ws
      have e3 : lev (w :: (ws ++ [x])) [] = ws.length + 2 := by
        rw [lev_nil_right]; simp
      have e4 : lev (w :: ws) ([] : Str) = ws.length + 1 := by
        rw [lev_nil_right]; simp
      omega
    | cons z zs ihy =>
      simp only [List.cons_append] at *
      have e1 := ihx (z :: zs)
      simp only [List.cons_append] at e1
      have e3 := ihx zs
      rw [lev_cons_cons w (ws ++ [x]) z (zs ++ [y]), e1, ihy, e3,
          lev_cons_cons w ws z (zs ++ [y]), lev_cons_cons w (ws ++ [x]) z zs,
          lev_cons_cons w ws z zs]
      exact min3_exchange _ _ _ _ _ _ _ _ _ _ _

theorem take_succ_getD {l : Str} {n : Nat} (h : n < l.length) :
    l.take (n + 1) = l.take n ++ [l.getD n ' '] := by
  rw [List.take_succ]
  congr 1
  rw [List.getD_eq_getElem _ _ h, List.getElem?_eq_getElem h]
  rfl

theorem length_take_of_le {l : Str} {n : Nat} (h : n ≤ l.length) :
    (l.take n).length = n := by
  rw [List.length_take]
  omega

/-- The last-character DP recurrence on prefixes. -/
theorem lev_take_rec (s t : Str) {i j : Nat} (hi : i < s.length) (hj : j < t.length) :
    lev (s.take (i + 1)) (t.take (j + 1)) =
      min (min (lev (s.take i) (t.take (j + 1)) + 1) (lev (s.take (i + 1)) (t.take j) + 1))
          (lev (s.take i) (t.take j) + subCost (s.getD i ' ') (t.getD j ' ')) := by
  rw [take_succ_getD hi, take_succ_getD hj, lev_snoc]

theorem lev_take_lower (s t : Str) {i j : Nat} (hi : i ≤ s.length) (hj : j ≤ t.length) :
    Nat.dist i j ≤ lev (s.take i) (t.take j) := by
  have h := dist_le_lev (s.take i) (t.take j)
  rwa [length_take_of_le hi, length_take_of_le hj] at h

theorem minOver_gt_iff (f : Nat → Nat) (k : Nat) :
    ∀ (len lo : Nat), 1 ≤ len →
      (k < minOver f lo len ↔ ∀ j, lo ≤ j → j < lo + len → k < f j) := by
  intro len
  induction len with
  | zero => intro lo h; omega
  | succ n ih =>
    intro lo _
    cases n with
    | zero =>
      have e : minOver f lo 1 = f lo := rfl
      rw [e]
      constructor
      · intro h j h1 h2
        have hj : j = lo := by omega
        subst hj
        exact h
      · intro h
        exact h lo (le_refl lo) (by omega)
    | succ m =>
      have e : minOver f lo (m + 2) = min (f lo) (minOver f (lo + 1) (m + 1)) := rfl
      rw [e, lt_min_iff, ih (lo + 1) (by omega)]
      constructor
      · rintro ⟨h1, h2⟩ j hj1 hj2
        by_cases hj : j = lo
        · subst hj; exact h1
        · exact h2 j (by omega) (by omega)
      · intro h
        exact ⟨h lo (by omega) (by omega), fun j hj1 hj2 => h j (by omega) (by omega)⟩

theorem trunc_cell_eq (P1 C P0 D1 D2 D3 c k : Nat)
    (h1 : min P1 (k + 1) = min D1 (k + 1))
    (h2 : min C (k + 1) = min D2 (k + 1))
    (h3 : min P0 (k + 1) = min D3 (k + 1)) :
    min (min (min (P1 + 1) (C + 1)) (P0 + c)) (k + 1) =
    min (min (min (D1 + 1) (D2 + 1)) (D3 + c)) (k + 1) := by
  apply Nat.le_antisymm <;>
  · simp only [le_min_iff, min_le_iff]
    omega

/-- Row invariant of the banded DP: within the truncation at `k + 1`, every
cell of row `i` agrees with the Levenshtein distance of the prefixes. -/
theorem bandCell_invariant (s t : Str) (k : Nat) (prev : Nat → Nat) (i : Nat)
    (hi1 : 1 ≤ i) (hila : i ≤ s.length)
    (hprev : ∀ j ≤ t.length,
      min (prev j) (k + 1) = min (lev (s.take (i - 1)) (t.take j)) (k + 1)) :
    ∀ j ≤ t.length, min (bandCell s t k (k + 1) prev i j) (k + 1) =
      min (lev (s.take i) (t.take j)) (k + 1) := by
  intro j
  induction j with
  | zero =>
    intro _
    have e : bandCell s t k (k + 1) prev i 0 = if i ≤ k then i else k + 1 := rfl
    have eD : lev (s.take i) (t.take 0) = i := by
      rw [List.take_zero, lev_nil_right, length_take_of_le hila]
    rw [e, eD]
    by_cases hik : i ≤ k
    · rw [if_pos hik]
    · rw [if_neg hik]
      omega
  | succ j ih =>
    intro hj1
    have hjle : j ≤ t.length := by omega
    have e : bandCell s t k (k + 1) prev i (j + 1) =
        if max 1 (i - k) ≤ j + 1 ∧ j + 1 ≤ min t.length (i + k) then
          min (min (prev (j + 1) + 1) (bandCell s t k (k + 1) prev i j + 1))
              (prev j + subCost (s.getD (i - 1) ' ') (t.getD j ' '))
        else k + 1 := rfl
    rw [e]
    by_cases hband : max 1 (i - k) ≤ j + 1 ∧ j + 1 ≤ min t.length (i + k)
    · rw [if_pos hband]
      have hrec : lev (s.take i) (t.take (j + 1)) =
          min (min (lev (s.take (i - 1)) (t.take (j + 1)) + 1)
                   (lev (s.take i) (t.take j) + 1))
              (lev (s.take (i - 1)) (t.take j) +
                subCost (s.getD (i - 1) ' ') (t.getD j ' ')) := by
        have h := lev_take_rec s t (i := i - 1) (j := j) (by omega) (by omega)
        have hi' : i - 1 + 1 = i := by omega
        rw [hi'] at h
        exact h
      rw [hrec]
      exact trunc_cell_eq _ _ _ _ _ _ _ _ (hprev (j + 1) hj1) (ih hjle) (hprev j hjle)
    · rw [if_neg hband]
      have hout : k < Nat.dist i (j + 1) := by
        simp only [Nat.dist]
        omega
      have hD : k < lev (s.take i) (t.take (j + 1)) :=
        lt_of_lt_of_le hout (lev_take_lower s t hila hj1)
      omega

/-- If every cell of some DP row exceeds `k`, the full distance exceeds `k`
(row minima of the Levenshtein DP are monotone in the row index). -/
theorem lev_row_lower (s t : Str) (k : Nat) (i : Nat) (hila : i ≤ s.length)
    (h : ∀ j ≤ t.length, k < lev (s.take i) (t.take j)) :
    k < lev s t := by
  have main : ∀ d, i + d ≤ s.length → ∀ j, j ≤ t.length →
      k < lev (s.take (i + d)) (t.take j) := by
    intro d
    induction d with
    | zero =>
      intro _ j hj
      simpa using h j hj
    | succ d ihd =>
      intro hds j
      induction j with
      | zero =>
        intro _
        have h0 := ihd (by omega) 0 (by omega)
        rw [List.take_zero, lev_nil_right, length_take_of_le (by omega)] at h0
        rw [List.take_zero, lev_nil_right, length_take_of_le (by omega)]
        omega
      | succ j ihj =>
        intro hj
        have hrec := lev_take_rec s t (i := i + d) (j := j) (by omega) (by omega)
        have h1 := ihd (by omega) (j + 1) hj
        have h2 := ihj (by omega)
        have h3 := ihd (by omega) j (by omega)
        have hadd : i + d + 1 = i + (d + 1) := by omega
        rw [hadd] at hrec
        rw [hrec]
        omega
  have hfin := main (s.length - i) (by omega) t.length (le_refl _)
  have hi : i + (s.length - i) = s.length := by omega
  rw [hi, List.take_length, List.take_length] at hfin
  exact hfin

/-- Correctness of the row loop with early exit, within truncation at `k+1`. -/
theorem bandLoop_correct (s t : Str) (k : Nat) :
    ∀ (n i : Nat) (prev : Nat → Nat), 1 ≤ i → i + n = s.length + 1 →
      (∀ j ≤ t.length,
        min (prev j) (k + 1) = min (lev (s.take (i - 1)) (t.take j)) (k + 1)) →
      (∀ fr, bandLoop s t k (k + 1) k n prev i = some fr →
          min (fr t.length) (k + 1) = min (lev s t) (k + 1)) ∧
      (bandLoop s t k (k + 1) k n prev i = none → k < lev s t) := by
  intro n
  induction n with
  | zero =>
    intro i prev hi1 hin hprev
    constructor
    · intro fr hfr
      have e : bandLoop s t k (k + 1) k 0 prev i = some prev := rfl
      rw [e] at hfr
      have hpf : prev = fr := Option.some_inj.mp hfr
      subst hpf
      have hp := hprev t.length (le_refl _)
      have hi : i - 1 = s.length := by omega
      rw [hi, List.take_length, List.take_length] at hp
      exact hp
    · intro hfr
      have e : bandLoop s t k (k + 1) k 0 prev i = some prev := rfl
      rw [e] at hfr
      cases hfr
  | succ n ihn =>
    intro i prev hi1 hin hprev
    have hcell := bandCell_invariant s t k prev i hi1 (by omega) hprev
    have e : bandLoop s t k (k + 1) k (n + 1) prev i =
        if k < minOver (bandCell s t k (k + 1) prev i) (max 1 (i - k) - 1)
            (min t.length (i + k) + 1 - (max 1 (i - k) - 1)) then none
        else bandLoop s t k (k + 1) k n (bandCell s t k (k + 1) prev i) (i + 1) := rfl
    rw [e]
    by_cases hexit : k < minOver (bandCell s t k (k + 1) prev i) (max 1 (i - k) - 1)
        (min t.length (i + k) + 1 - (max 1 (i - k) - 1))
    · rw [if_pos hexit]
      constructor
      · intro fr hfr; cases hfr
      · intro _
        apply lev_row_lower s t k i (by omega)
        intro j hj
        by_cases hwin : max 1 (i - k) - 1 ≤ j ∧ j < min t.length (i + k) + 1
        · have hlen1 : 1 ≤ min t.length (i + k) + 1 - (max 1 (i - k) - 1) := by omega
          have hcur := (minOver_gt_iff (bandCell s t k (k + 1) prev i) k
            (min t.length (i + k) + 1 - (max 1 (i - k) - 1)) (max 1 (i - k) - 1)
            hlen1).mp hexit j hwin.1 (by omega)
          have hc := hcell j hj
          omega
        · have hout : k < Nat.dist i j := by
            simp only [Nat.dist]
            omega
          exact lt_of_lt_of_le hout (lev_take_lower s t (by omega) hj)
    · rw [if_neg hexit]
      apply ihn (i + 1) (bandCell s t k (k + 1) prev i) (by omega) (by omega)
      intro j hj
      have hi : i + 1 - 1 = i := by omega
      rw [hi]
      exact hcell j hj

theorem banded_unfold_some (a b : Str) (k : Nat) :
    banded_levenshtein a b (some k) =
      (if a = b then some 0
       else if a = [] then (if b.length ≤ k then some b.length else none)
       else if b = [] then (if a.length ≤ k then some a.length else none)
       else if k < Nat.dist a.length b.length then none
       else
         match bandLoop (if b.length < a.length then b else a)
             (if b.length < a.length then a else b) k (k + 1) k
             (if b.length < a.length then b else a).length
             (row0 (if b.length < a.length then a else b) k (k + 1)) 1 with
         | none => none
         | some fr =>
           if k < fr (if b.length < a.length then a else b).length then none
           else some (fr (if b.length < a.length then a else b).length)) := rfl

theorem row0_base (s t : Str) (k : Nat) :
    ∀ j ≤ t.length, min (row0 t k (k + 1) j) (k + 1) =
      min (lev (s.take (1 - 1)) (t.take j)) (k + 1) := by
  intro j hj
  have e1 : (1 : Nat) - 1 = 0 := rfl
  rw [e1, List.take_zero, lev_nil, length_take_of_le hj]
  simp only [row0]
  by_cases hjk : j ≤ min t.length k
  · rw [if_pos hjk]
  · rw [if_neg hjk]
    omega

theorem banded_core_correct (s t : Str) (k : Nat) (hst : lev s t = lev a b) :
    (match bandLoop s t k (k + 1) k s.length (row0 t k (k + 1)) 1 with
     | none => none
     | some fr => if k < fr t.length then none else some (fr t.length)) =
      if lev a b ≤ k then some (lev a b) else none := by
  have hloop := bandLoop_correct s t k s.length 1 (row0 t k (k + 1)) (by omega)
    (by omega) (row0_base s t k)
  cases hbl : bandLoop s t k (k + 1) k s.length (row0 t k (k + 1)) 1 with
  | none =>
    have hgt := hloop.2 hbl
    rw [hst] at hgt
    rw [if_neg (by omega)]
  | some fr =>
    have heq := hloop.1 fr hbl
    rw [hst] at heq
    by_cases hk : lev a b ≤ k
    · have hfr : fr t.length = lev a b := by omega
      rw [if_pos hk]
      simp only []
      rw [if_neg (by omega), hfr]
    · have hfr : k < fr t.length := by omega
      rw [if_neg hk]
      simp only []
      rw [if_pos hfr]

/-- `banded_levenshtein a b (some k)` is exactly the truncated Levenshtein
distance: the distance when it is at most `k`, and `none` otherwise. -/
theorem banded_eq_spec (a b : Str) (k : Nat) :
    banded_levenshtein a b (some k) = if lev a b ≤ k then some (lev a b) else none := by
  rw [banded_unfold_some]
  by_cases hab : a = b
  · subst hab
    rw [if_pos rfl, lev_self, if_pos (by omega)]
  · rw [if_neg hab]
    by_cases ha : a = []
    · subst ha
      rw [if_pos rfl, lev_nil]
    · rw [if_neg ha]
      by_cases hb : b = []
      · subst hb
        rw [if_pos rfl, lev_nil_right]
      · rw [if_neg hb]
        by_cases hdist : k < Nat.dist a.length b.length
        · rw [if_pos hdist]
          have hlev := dist_le_lev a b
          rw [if_neg (by omega)]
        · rw [if_neg hdist]
          by_cases hsw : b.length < a.length
          · rw [if_pos hsw, if_pos hsw]
            exact banded_core_correct b a k (lev_comm b a)
          · rw [if_neg hsw, if_neg hsw]
            exact banded_core_correct a b k rfl

/-- C2: for all strings `a`, `b` and every cutoff `k ≥ 0`,
`banded_levenshtein a b k` returns `none` whenever `|len a - len b| > k`;
otherwise it returns exactly the unbounded Levenshtein distance whenever
that distance is at most `k`, and `none` whenever that distance
exceeds `k`. -/
theorem c2_banded_levenshtein_correct (a b : Str) (k : Nat) :
    (k < Nat.dist a.length b.length → banded_levenshtein a b (some k) = none) ∧
    (Nat.dist a.length b.length ≤ k →
      (lev a b ≤ k → banded_levenshtein a b (some k) = some (lev a b)) ∧
      (k < lev a b → banded_levenshtein a b (some k) = none)) := by
  refine ⟨fun hd => ?_, fun _ => ⟨fun hle => ?_, fun hgt => ?_⟩⟩
  · rw [banded_eq_spec]
    have := dist_le_lev a b
    rw [if_neg (by omega)]
  · rw [banded_eq_spec, if_pos hle]
  · rw [banded_eq_spec, if_neg (by omega)]

/-- C2 witness: `banded_levenshtein` evaluated at concrete inputs through the
correctness theorem (`ab`/`b` at cutoff 1, and `ab`/`abcde` at cutoff 2). -/
theorem c2_banded_levenshtein_witness :
    banded_levenshtein ("ab".toList) ("b".toList) (some 1) =
      some (lev ("ab".toList) ("b".toList)) ∧
    banded_levenshtein ("ab".toList) ("abcde".toList) (some 2) = none ∧
    banded_levenshtein ("ab".toList) ("cd".toList) (some 1) = none :=
  ⟨((c2_banded_levenshtein_correct ("ab".toList) ("b".toList) 1).2
      (by decide)).1 (by decide),
   (c2_banded_levenshtein_correct ("ab".toList) ("abcde".toList) 2).1 (by decide),
   ((c2_banded_levenshtein_correct ("ab".toList) ("cd".toList) 1).2
      (by decide)).2 (by decide)⟩

theorem check_urls_foldl_eq (sender : Option Str) :
    ∀ (urls : List Url) (fs : List UrlFinding)
      (seen : List (Str × Option Str × Str × Str)),
      (urls.foldl (check_urls_step sender) (fs, seen)).1 =
        fs ++ (firstOccurAux urls seen).filterMap (mkFinding sender) := by
  intro urls
  induction urls with
  | nil => intro fs seen; simp [firstOccurAux]
  | cons u rest ih =>
    intro fs seen
    show (rest.foldl (check_urls_step sender) (check_urls_step sender (fs, seen) u)).1 = _
    by_cases hfp : fingerprintOf u ∈ seen
    · have estep : check_urls_step sender (fs, seen) u = (fs, seen) := by
        simp only [check_urls_step]
        rw [if_pos hfp]
      have efo : firstOccurAux (u :: rest) seen = firstOccurAux rest seen := by
        simp only [firstOccurAux]
        rw [if_pos hfp]
      rw [estep, efo]
      exact ih fs seen
    · have efo : firstOccurAux (u :: rest) seen =
          u :: firstOccurAux rest (fingerprintOf u :: seen) := by
        simp only [firstOccurAux]
        rw [if_neg hfp]
      cases hmk : mkFinding sender u with
      | some f =>
        have estep : check_urls_step sender (fs, seen) u =
            (fs ++ [f], fingerprintOf u :: seen) := by
          simp only [check_urls_step]
          rw [if_neg hfp, hmk]
        rw [estep, efo, ih (fs ++ [f]) _]
        simp [hmk]
      | none =>
        have estep : check_urls_step sender (fs, seen) u =
            (fs, fingerprintOf u :: seen) := by
          simp only [check_urls_step]
          rw [if_neg hfp, hmk]
        rw [estep, efo, ih fs _]
        simp [hmk]

/-- `check_urls` is the risky-finding map over the first occurrence of each
distinct URL fingerprint. -/
theorem check_urls_eq (urls : List Url) (sender : Option Str) :
    check_urls urls sender = (firstOccur urls).filterMap (mkFinding sender) := by
  show (urls.foldl (check_urls_step sender) ([], [])).1 = _
  rw [check_urls_foldl_eq]
  rfl

theorem firstOccurAux_props :
    ∀ (urls : List Url) (seen : List (Str × Option Str × Str × Str)),
      ((firstOccurAux urls seen).map fingerprintOf).Nodup ∧
      (∀ u ∈ firstOccurAux urls seen, fingerprintOf u ∉ seen) ∧
      (firstOccurAux urls seen).Sublist urls := by
  intro urls
  induction urls with
  | nil => intro seen; simp [firstOccurAux]
  | cons u rest ih =>
    intro seen
    by_cases hfp : fingerprintOf u ∈ seen
    · have efo : firstOccurAux (u :: rest) seen = firstOccurAux rest seen := by
        simp only [firstOccurAux]
        rw [if_pos hfp]
      rw [efo]
      obtain ⟨h1, h2, h3⟩ := ih seen
      exact ⟨h1, h2, h3.trans (List.sublist_cons_self u rest)⟩
    · have efo : firstOccurAux (u :: rest) seen =
          u :: firstOccurAux rest (fingerprintOf u :: seen) := by
        simp only [firstOccurAux]
        rw [if_neg hfp]
      rw [efo]
      obtain ⟨h1, h2, h3⟩ := ih (fingerprintOf u :: seen)
      refine ⟨?_, ?_, h3.cons₂ u⟩
      · rw [List.map_cons, List.nodup_cons]
        refine ⟨?_, h1⟩
        intro hmem
        rcases List.mem_map.mp hmem with ⟨v, hv, hfv⟩
        exact (h2 v hv) (hfv ▸ List.mem_cons_self _ _)
      · intro v hv
        rcases List.mem_cons.mp hv with h | h
        · subst h; exact hfp
        · exact fun hc => (h2 v h) (List.mem_cons_of_mem _ hc)

theorem domain_risk_pos {host sender : Option Str}
    (h : (_domain_risk host sender).1 ≠ 0) :
    ∃ r, (_domain_risk host sender).2 = some r := by
  cases host with
  | none => simp [_domain_risk] at h
  | some hh =>
    cases sender with
    | none =>
      simp only [_domain_risk] at h ⊢
      split_ifs at h ⊢ <;> simp_all
    | some sd =>
      simp only [_domain_risk] at h ⊢
      by_cases hsd : sd = []
      · simp only [hsd, if_pos rfl] at h ⊢
        split_ifs at h ⊢ <;> simp_all
      · simp only [if_neg hsd] at h ⊢
        cases hrd : registrable_domain (some sd) with
        | none =>
          simp only [hrd] at h ⊢
          split_ifs at h ⊢ <;> simp_all
        | some rd =>
          simp only [hrd] at h ⊢
          split_ifs at h ⊢ <;> simp_all

theorem mkFinding_score_bounds {sender : Option Str} {u : Url} {f : UrlFinding}
    (h : mkFinding sender u = some f) :
    1 ≤ f.score ∧ f.score ≤ 6 ∧ f.reasons ≠ [] ∧ f.url = u := by
  have hdr := @domain_risk_pos u.hostname sender
  simp only [mkFinding] at h
  by_cases ht : is_high_risk_tld u.hostname = true <;>
  by_cases hs : is_shortener u.hostname = true <;>
  by_cases hc : _credential_harvest_score u.path u.query = 0 <;>
  simp only [ht, hs, hc, if_true, if_false, ite_true, ite_false, ne_eq,
    not_true_eq_false, not_false_eq_true, Bool.false_eq_true] at h
  all_goals by_cases hd : (_domain_risk u.hostname sender).1 = 0
  all_goals try { rw [if_neg (by omega)] at h; exact absurd h (by simp) }
  all_goals rw [if_pos (by omega)] at h
  all_goals injection h with h
  all_goals subst h
  all_goals refine ⟨?_, ?_, ?_, rfl⟩
  all_goals dsimp only
  all_goals try omega
  all_goals first
    | (have hd2 : (_domain_risk u.hostname sender).1 ≠ 0 := by omega
       obtain ⟨r, hr⟩ := hdr hd2
       rw [hr]
       simp)
    | simp

theorem url_points_loop_cap :
    ∀ (fs : List UrlFinding) (acc : Nat), acc ≤ 8 →
      acc + (url_points_loop fs acc).1 ≤ 8 := by
  intro fs
  induction fs with
  | nil => intro acc hacc; simpa [url_points_loop] using hacc
  | cons f rest ih =>
    intro acc hacc
    simp only [url_points_loop]
    by_cases h0 : f.score = 0
    · rw [if_pos h0]; exact ih acc hacc
    · rw [if_neg h0]
      by_cases hover : 8 < acc + min f.score 4
      · rw [if_pos hover]
        by_cases hz : 8 - acc = 0
        · rw [if_pos hz]; exact ih acc hacc
        · rw [if_neg hz]
          have := ih (acc + (8 - acc)) (by omega)
          dsimp only
          omega
      · rw [if_neg hover]
        by_cases hz : min f.score 4 = 0
        · rw [if_pos hz]; exact ih acc hacc
        · rw [if_neg hz]
          have := ih (acc + min f.score 4) (by omega)
          dsimp only
          omega

theorem filterMap_fp_sublist (sender : Option Str) :
    ∀ (l : List Url),
      ((l.filterMap (mkFinding sender)).map (fun f => fingerprintOf f.url)).Sublist
        (l.map fingerprintOf) := by
  intro l
  induction l with
  | nil => simp
  | cons u rest ih =>
    cases hmk : mkFinding sender u with
    | none =>
      simp only [List.filterMap_cons, hmk, List.map_cons]
      exact ih.trans (List.sublist_cons_self _ _)
    | some f =>
      have hurl : f.url = u := (mkFinding_score_bounds hmk).2.2.2
      simp only [List.filterMap_cons, hmk, List.map_cons, hurl]
      exact ih.cons₂ _

/-- C6: every `UrlFinding` produced by `check_urls` has a risk score in
`[0, 6]` (the per-URL risk is clamped to 6), and the URL loop of
`score_email` never adds more than the fixed cap of 8 points in total, no
matter how many findings there are. -/
theorem c6_url_risk_bounds :
    ∀ (urls : List Url) (sender : Option Str) (findings : List UrlFinding),
      (∀ f ∈ check_urls urls sender, 0 ≤ f.score ∧ f.score ≤ 6) ∧
      (url_points_loop findings 0).1 ≤ 8 := by
  intro urls sender findings
  constructor
  · intro f hf
    rw [check_urls_eq] at hf
    rcases List.mem_filterMap.mp hf with ⟨u, _, hmk⟩
    exact ⟨Nat.zero_le _, (mkFinding_score_bounds hmk).2.1⟩
  · have := url_points_loop_cap findings 0 (by omega)
    omega

/-- C10: `check_urls` never emits a zero-risk finding — every returned
finding has score ≥ 1 and a non-empty reasons list — and the returned list
has at most one finding per distinct `(scheme, host, path, query)`
fingerprint: it equals the risky-finding map over `firstOccur`, the
subsequence of the input keeping the first occurrence of each fingerprint
in input order. -/
theorem c10_check_urls_findings :
    ∀ (urls : List Url) (sender : Option Str),
      (∀ f ∈ check_urls urls sender, 1 ≤ f.score ∧ f.reasons ≠ []) ∧
      ((check_urls urls sender).map (fun f => fingerprintOf f.url)).Nodup ∧
      check_urls urls sender = (firstOccur urls).filterMap (mkFinding sender) ∧
      (firstOccur urls).Sublist urls := by
  intro urls sender
  have heq := check_urls_eq urls sender
  obtain ⟨hnd, _, hsub⟩ := firstOccurAux_props urls []
  refine ⟨?_, ?_, heq, hsub⟩
  · intro f hf
    rw [heq] at hf
    rcases List.mem_filterMap.mp hf with ⟨u, _, hmk⟩
    have hb := mkFinding_score_bounds hmk
    exact ⟨hb.1, hb.2.2.1⟩
  · rw [heq]
    exact hnd.sublist (filterMap_fp_sublist sender (firstOccur urls))

theorem c6_url_risk_bounds_witness :
    (0 ≤ findingEvil.score ∧ findingEvil.score ≤ 6) ∧
      (url_points_loop [findingEvil, findingEvil, findingEvil, findingEvil,
        findingEvil] 0).1 ≤ 8 :=
  ⟨(c6_url_risk_bounds [urlEvil] (some ("example.org".toList))
      [findingEvil]).1 findingEvil (by decide),
   (c6_url_risk_bounds [urlEvil] (some ("example.org".toList))
      [findingEvil, findingEvil, findingEvil, findingEvil, findingEvil]).2⟩

theorem c10_check_urls_findings_witness :
    1 ≤ findingEvil.score ∧ findingEvil.reasons ≠ [] :=
  (c10_check_urls_findings [urlEvil, urlEvil]
    (some ("example.org".toList))).1 findingEvil (by decide)

/-- An email with no identity, routing or lexical signal and no URLs or
attachments scores 0 and is labelled LOW; nothing in the hypotheses
constrains the From domain itself, so this holds in particular for From
domains within edit distance 1 of a known brand domain. -/
theorem score_email_quiet (h : Headers) (body : Str)
    (h1 : replyDomOf h = none ∨ replyDomOf h = fromDomOf h)
    (h2 : returnDomOf h = none ∨ returnDomOf h = fromDomOf h)
    (h3 : is_idn_or_confusable (confusableTargetOf h) = none)
    (h4 : mentions_brand (some (h.hSubject.getD [])) (some body) 1 = none ∨
        ∀ fdm, fromDomOf h = some fdm → is_freemx fdm = false)
    (h5 : received_anomaly (getReceivedValues h.hReceived) = none)
    (h6 : msgid_domain_mismatch h.hMessageId (fromDomOf h) = none)
    (h7 : lexical_score (some (h.hSubject.getD [])) (some body) none = (0, [], [])) :
    score_email h body [] [] = Except.ok ⟨"LOW".toList, 0, [], [], []⟩ := by
  simp only [replyDomOf, returnDomOf, fromDomOf, fromHostOf, confusableTargetOf]
    at h1 h2 h3 h4 h6
  rcases hfh : (_address_domains (parse_core_addresses h).1).1 with _ | fh <;>
  rcases hfd : (_address_domains (parse_core_addresses h).1).2 with _ | fd
  all_goals simp only [hfh, hfd] at h1 h2 h3 h4 h6
  all_goals rcases h1 with h1 | h1
  all_goals rcases h2 with h2 | h2
  all_goals rcases h4 with h4 | h4
  all_goals simp_all [score_email, check_urls, check_urls_step, url_points_loop,
    label_from]

/-- C1: `score_email` is not total — on the repository's own test input
(From `alerts@example.com`, subject `Urgent billing update`, body
`Please verify your account immediately`) it raises `TypeError` instead of
returning a labelled score, because the lexical block joins the
`KeywordHit` dataclasses with `", ".join`; the threshold half of the claim
is correct for `label_from` itself: HIGH exactly at score ≥ 10, MEDIUM
exactly at 5 ≤ score < 10, LOW exactly at score < 5. -/
theorem c1_score_email_typeerror :
    score_email headersC1 ("Please verify your account immediately".toList) [] [] =
      Except.error typeErrorMsg ∧
    (∀ s : Int, (label_from s = "HIGH".toList ↔ 10 ≤ s) ∧
      (label_from s = "MEDIUM".toList ↔ 5 ≤ s ∧ s < 10) ∧
      (label_from s = "LOW".toList ↔ s < 5)) := by
  refine ⟨by rfl, fun s => ?_⟩
  simp only [label_from]
  by_cases h10 : 10 ≤ s <;> by_cases h5 : 5 ≤ s <;>
    simp [h10, h5] <;> omega

/-- C4: the keyword `urgent` alone in the subject yields exactly one
`KeywordHit` with location `subject` and points 3 (1 base + 2 subject
bonus) from the keyword scorer, but `score_email` on such an email raises
`TypeError` in its lexical block rather than adding 3 points. -/
theorem c4_urgent_keyword :
    lexical_score (some ("urgent".toList)) (some ([] : Str)) none =
      (3, ["urgent".toList], [⟨"urgent".toList, "subject".toList, 3, 0⟩]) ∧
    score_keyword_positions (some ("urgent".toList)) (some ([] : Str))
      _default_keywords EARLY_BODY_WINDOW =
      (3, ["urgent".toList], [⟨"urgent".toList, "subject".toList, 3, 0⟩]) ∧
    score_email headersC4 [] [] [] = Except.error typeErrorMsg :=
  ⟨by decide, by decide, by rfl⟩

/-- C3 counterexample: the From domain `paypol.com` is within edit
distance 1 of the known brand domain `paypal.com` (the brand matcher
itself says so), yet `score_email` adds no +3 contribution — the email
scores 0 and is labelled LOW with no explanation at all. -/
theorem c3_brand_similarity_counterexample :
    domain_similar_to_brand (some ("paypol.com".toList)) 1 =
      some [("paypal.com".toList)] ∧
    score_email headersPaypol [] [] [] =
      Except.ok ⟨"LOW".toList, 0, [], [], []⟩ :=
  ⟨by decide, by rfl⟩

/-- C3 amended: `score_email` performs no brand-domain-similarity scoring
at all (`domain_similar_to_brand` is never invoked): any email free of
identity, routing and lexical signals scores 0 and is labelled LOW, with
no hypothesis about its From domain, so brand-lookalike domains score 0
too; and the crafted brand-lookalike email of the spec raises `TypeError`
in the lexical block instead of producing label HIGH. -/
theorem c3_brand_similarity_amended :
    (∀ (h : Headers) (body : Str),
      (replyDomOf h = none ∨ replyDomOf h = fromDomOf h) →
      (returnDomOf h = none ∨ returnDomOf h = fromDomOf h) →
      is_idn_or_confusable (confusableTargetOf h) = none →
      (mentions_brand (some (h.hSubject.getD [])) (some body) 1 = none ∨
        ∀ fdm, fromDomOf h = some fdm → is_freemx fdm = false) →
      received_anomaly (getReceivedValues h.hReceived) = none →
      msgid_domain_mismatch h.hMessageId (fromDomOf h) = none →
      lexical_score (some (h.hSubject.getD [])) (some body) none = (0, [], []) →
      score_email h body [] [] = Except.ok ⟨"LOW".toList, 0, [], [], []⟩) ∧
    score_email headersCrafted ("Please login to keep your account".toList)
      [craftedUrl] [] = Except.error typeErrorMsg :=
  ⟨fun h body h1 h2 h3 h4 h5 h6 h7 => score_email_quiet h body h1 h2 h3 h4 h5 h6 h7,
   by rfl⟩

theorem c3_brand_similarity_amended_witness :
    score_email headersPaypol [] [] [] =
      Except.ok ⟨"LOW".toList, 0, [], [], []⟩ :=
  c3_brand_similarity_amended.1 headersPaypol [] (Or.inl rfl) (Or.inl rfl)
    (by decide) (Or.inl (by decide)) rfl rfl (by decide)

/-- C8: a well-formed email with no identity, routing or lexical signal
and no URLs or attachments always scores successfully — label LOW, score
0, no matched keywords, no URL findings — and on that result the
explanation builder emits exactly the LOW summary plus the default
no-strong-indicators line, whatever the per-reason formatter does. -/
theorem c8_signal_free_low (h : Headers) (body : Str) (humanize : Str → Str)
    (h1 : replyDomOf h = none ∨ replyDomOf h = fromDomOf h)
    (h2 : returnDomOf h = none ∨ returnDomOf h = fromDomOf h)
    (h3 : is_idn_or_confusable (confusableTargetOf h) = none)
    (h4 : mentions_brand (some (h.hSubject.getD [])) (some body) 1 = none ∨
        ∀ fdm, fromDomOf h = some fdm → is_freemx fdm = false)
    (h5 : received_anomaly (getReceivedValues h.hReceived) = none)
    (h6 : msgid_domain_mismatch h.hMessageId (fromDomOf h) = none)
    (h7 : lexical_score (some (h.hSubject.getD [])) (some body) none = (0, [], [])) :
    score_email h body [] [] = Except.ok ⟨"LOW".toList, 0, [], [], []⟩ ∧
    build_explanations humanize ("LOW".toList) 0 [] [] [] [] =
      ["Low phishing risk: composite score 0. No immediate red flags were detected, but stay vigilant.".toList,
       noIndicatorsLine] :=
  ⟨score_email_quiet h body h1 h2 h3 h4 h5 h6 h7, by rfl⟩

theorem c8_signal_free_low_witness :
    score_email headersBenign ("See you tomorrow.".toList) [] [] =
      Except.ok ⟨"LOW".toList, 0, [], [], []⟩ ∧
    build_explanations (fun r => r) ("LOW".toList) 0 [] [] [] [] =
      ["Low phishing risk: composite score 0. No immediate red flags were detected, but stay vigilant.".toList,
       noIndicatorsLine] :=
  c8_signal_free_low headersBenign ("See you tomorrow.".toList) (fun r => r)
    (Or.inl rfl) (Or.inl rfl) (by decide) (Or.inl (by decide)) rfl rfl (by decide)

/-- Any reason the reference loop emits is a confusable-match reason. -/
theorem refCheck_shape {lc ref r : Str} (h : refCheck lc ref = some r) :
    ∃ rl, r = "confusable match for ".toList ++ rl := by
  simp only [refCheck] at h
  split_ifs at h with h1 h2 h3
  exact ⟨pyCasefold (pyStrip ref), (Option.some.inj h).symm⟩

/-- Any reason `confusableRefMatch` returns is a confusable-match
reason. -/
theorem confusableRefMatch_shape :
    ∀ (refs : List Str) (lc r : Str),
      confusableRefMatch lc refs = some r →
      ∃ rl, r = "confusable match for ".toList ++ rl := by
  intro refs
  induction refs with
  | nil => intro lc r h; simp [confusableRefMatch] at h
  | cons a rest ih =>
    intro lc r h
    rw [confusableRefMatch, List.findSome?_cons] at h
    cases hh : refCheck lc a with
    | some v =>
      rw [hh] at h
      have := refCheck_shape hh
      rwa [Option.some.inj h] at this
    | none =>
      rw [hh] at h
      exact ih lc r h

/-- C5 amended: `detect_confusable` is total and applies its checks in
order with first match winning — `xn--` anywhere in the lower-cased
candidate yields `punycode label`; else a zero-width code point yields
`zero-width characters`; else a non-empty skeleton equal to the skeleton
of a literally different reference domain yields a confusable-match
reason (first such reference wins); else, for a candidate containing a
non-ASCII character, it returns `confusable skeleton ...` when the
skeleton differs from the plain ASCII fold and `non-ascii characters`
(not no-match, as the spec said) otherwise; a pure-ASCII candidate that
reaches the last check yields no match. -/
theorem c5_detect_confusable_amended :
    ∀ (d : Str) (refs : List Str),
      d ≠ [] → pyStrip d ≠ [] →
      (strContains (pyCasefold (pyStrip d)) ("xn--".toList) = true →
        detect_confusable (some d) refs = some ("punycode label".toList)) ∧
      (strContains (pyCasefold (pyStrip d)) ("xn--".toList) = false →
        contains_zero_width (pyCasefold (pyStrip d)) = true →
        detect_confusable (some d) refs = some ("zero-width characters".toList)) ∧
      (strContains (pyCasefold (pyStrip d)) ("xn--".toList) = false →
        contains_zero_width (pyCasefold (pyStrip d)) = false →
        (∃ ref, ref ∈ refs ∧ pyStrip ref ≠ [] ∧
          pyCasefold (pyStrip ref) ≠ pyCasefold (pyStrip d) ∧
          unicode_skeleton (pyCasefold (pyStrip d)) ≠ [] ∧
          unicode_skeleton (pyCasefold (pyStrip d)) =
            unicode_skeleton (pyCasefold (pyStrip ref))) →
        ∃ rl, detect_confusable (some d) refs =
          some ("confusable match for ".toList ++ rl)) ∧
      (strContains (pyCasefold (pyStrip d)) ("xn--".toList) = false →
        contains_zero_width (pyCasefold (pyStrip d)) = false →
        confusableRefMatch (pyCasefold (pyStrip d)) refs = none →
        (pyCasefold (pyStrip d)).any (fun c => 127 < c.toNat) = true →
        detect_confusable (some d) refs =
          (if unicode_skeleton (pyCasefold (pyStrip d)) ≠ [] ∧
              unicode_skeleton (pyCasefold (pyStrip d)) ≠
                asciiFold (pyCasefold (pyStrip d)) then
            some ("confusable skeleton ".toList ++
              unicode_skeleton (pyCasefold (pyStrip d)))
          else some ("non-ascii characters".toList))) ∧
      (strContains (pyCasefold (pyStrip d)) ("xn--".toList) = false →
        contains_zero_width (pyCasefold (pyStrip d)) = false →
        confusableRefMatch (pyCasefold (pyStrip d)) refs = none →
        (pyCasefold (pyStrip d)).any (fun c => 127 < c.toNat) = false →
        detect_confusable (some d) refs = none) := by
  intro d refs hd hstrip
  have hdc : detect_confusable (some d) refs =
      (if strContains (pyCasefold (pyStrip d)) ("xn--".toList) then
        some ("punycode label".toList)
      else if contains_zero_width (pyCasefold (pyStrip d)) then
        some ("zero-width characters".toList)
      else
        match confusableRefMatch (pyCasefold (pyStrip d)) refs with
        | some r => some r
        | none =>
          if (pyCasefold (pyStrip d)).any (fun c => 127 < c.toNat) then
            if unicode_skeleton (pyCasefold (pyStrip d)) ≠ [] ∧
                unicode_skeleton (pyCasefold (pyStrip d)) ≠
                  asciiFold (pyCasefold (pyStrip d)) then
              some ("confusable skeleton ".toList ++
                unicode_skeleton (pyCasefold (pyStrip d)))
            else some ("non-ascii characters".toList)
          else none) := by
    simp only [detect_confusable]
    rw [if_neg hd, if_neg hstrip]
  refine ⟨?_, ?_, ?_, ?_, ?_⟩
  · intro hxn
    rw [hdc, if_pos hxn]
  · intro hxn hzw
    rw [hdc, if_neg (by rw [hxn]; exact Bool.false_ne_true), if_pos hzw]
  · intro hxn hzw hex
    rcases hex with ⟨ref, hmem, hs1, hs2, hs3, hs4⟩
    have hrc : refCheck (pyCasefold (pyStrip d)) ref ≠ none := by
      simp only [refCheck]
      rw [if_neg hs1, if_neg hs2, if_pos ⟨hs3, hs4⟩]
      simp
    cases hm : confusableRefMatch (pyCasefold (pyStrip d)) refs with
    | none =>
      rw [confusableRefMatch, List.findSome?_eq_none_iff] at hm
      exact absurd (hm ref hmem) hrc
    | some r =>
      obtain ⟨rl, hrl⟩ := confusableRefMatch_shape refs _ r hm
      refine ⟨rl, ?_⟩
      rw [hdc, if_neg (by rw [hxn]; exact Bool.false_ne_true), if_neg (by rw [hzw]; exact Bool.false_ne_true), hm, hrl]
  · intro hxn hzw hm hna
    rw [hdc, if_neg (by rw [hxn]; exact Bool.false_ne_true), if_neg (by rw [hzw]; exact Bool.false_ne_true), hm, if_pos hna]
  · intro hxn hzw hm hna
    rw [hdc, if_neg (by rw [hxn]; exact Bool.false_ne_true), if_neg (by rw [hzw]; exact Bool.false_ne_true), hm,
      if_neg (by rw [hna]; exact Bool.false_ne_true)]

/-- C5 counterexample: `a<U+2603>.com` contains a non-ASCII character and
its skeleton equals its plain ASCII fold, so the spec says no match, but
`detect_confusable` returns `non-ascii characters`. -/
theorem c5_detect_confusable_counterexample :
    detect_confusable (some snowmanDomain) [] =
      some ("non-ascii characters".toList) ∧
    (pyCasefold (pyStrip snowmanDomain)).any (fun c => 127 < c.toNat) = true ∧
    unicode_skeleton (pyCasefold (pyStrip snowmanDomain)) ≠ [] ∧
    unicode_skeleton (pyCasefold (pyStrip snowmanDomain)) =
      asciiFold (pyCasefold (pyStrip snowmanDomain)) := by
  refine ⟨by decide, by decide, by decide, by decide⟩

/-- C5 amended: `detect_confusable` is total and applies its checks in
order with first match winning — `xn--` anywhere in the lower-cased
candidate yields `punycode label`; else a zero-width code point yields
`zero-width characters`; else a non-empty skeleton equal to the skeleton
of a literally different reference domain yields a confusable-match
reason (first such reference wins); else, for a candidate containing a
non-ASCII character, it returns `confusable skeleton ...` when the
skeleton differs from the plain ASCII fold and `non-ascii characters`
(not no-match, as the spec said) otherwise; a pure-ASCII candidate that
reaches the last check yields no match. -/
theorem c5_detect_confusable_amended_witness :
    detect_confusable (some ("xn--plpal.com".toList)) [] =
      some ("punycode label".toList) ∧
    (∃ rl, detect_confusable (some cyrPaypal) [("paypal.com".toList)] =
      some ("confusable match for ".toList ++ rl)) ∧
    detect_confusable (some cyrADomain) [] =
      some ("confusable skeleton ".toList ++ "a.com".toList) ∧
    detect_confusable (some ("example.com".toList)) [] = none := by
  refine ⟨(c5_detect_confusable_amended ("xn--plpal.com".toList) [] (by decide)
      (by decide)).1 (by decide),
    (c5_detect_confusable_amended cyrPaypal [("paypal.com".toList)] (by decide)
      (by decide)).2.2.1 (by decide) (by decide)
      ⟨"paypal.com".toList, by decide, by decide, by decide, by decide, by decide⟩,
    ((c5_detect_confusable_amended cyrADomain [] (by decide)
      (by decide)).2.2.2.1 (by decide) (by decide) (by rfl) (by decide)).trans
      (by decide),
    (c5_detect_confusable_amended ("example.com".toList) [] (by decide)
      (by decide)).2.2.2.2 (by decide) (by decide) (by rfl) (by decide)⟩

/-- A fresh cache entry is returned while the TTL has not elapsed. -/
theorem cacheGet_set_hit (c : List CacheEntry) (tset tget : Nat) (k : CacheKey)
    (v : Analysis) (h : tget < tset + _CACHE_TTL_SECONDS) :
    cacheGet (cacheSet c tset k v) tget k = some v := by
  have hp : (fun e : CacheEntry => decide (e.key = k) && decide (tget < e.expires))
      ⟨k, v, tset + _CACHE_TTL_SECONDS⟩ = true := by simp [h]
  simp [cacheGet, cacheSet, List.find?_cons, h]

/-- A cache entry is gone once the TTL has elapsed. -/
theorem cacheGet_set_expired (c : List CacheEntry) (tset tget : Nat)
    (k : CacheKey) (v : Analysis) (h : tset + _CACHE_TTL_SECONDS ≤ tget) :
    cacheGet (cacheSet c tset k v) tget k = none := by
  have hng : ¬(tget < tset + _CACHE_TTL_SECONDS) := by omega
  have hall : (List.filter (fun e => !decide (e.key = k)) c).find?
      (fun e => decide (e.key = k) && decide (tget < e.expires)) = none := by
    rw [List.find?_eq_none]
    intro e he
    have hne := List.of_mem_filter he
    simp at hne ⊢
    intro hek
    exact absurd hek hne
  simp [cacheGet, cacheSet, List.find?_cons, hng, hall]

/-- One payload, cache miss: exactly one external call, the result is
cached. -/
theorem analyze_single_miss (api_key model : Str) (p : Payload) (a : Analysis)
    (oracle : List Payload → Str → Option Analysis)
    (cache : List CacheEntry) (t : Nat)
    (hkey : api_key ≠ []) (hmodel : model ∈ SUPPORTED_LLM_MODELS)
    (hmiss : cacheGet cache t (_cache_key model p) = none)
    (ha : oracle [p] p.pid = some a) :
    analyze_payloads api_key model [p] oracle cache t =
      Except.ok ([(p.pid, a)], cacheSet cache t (_cache_key model p) a, 1) := by
  simp only [analyze_payloads]
  rw [if_neg (by simp), if_neg (not_not_intro hmodel), if_neg hkey]
  simp only [List.foldl_cons, List.foldl_nil, hmiss]
  simp [_chunk, chunkFuel, _MAX_BATCH_SIZE, ha, dictSet]

/-- One payload, cache hit: no external call, the cache unchanged. -/
theorem analyze_single_hit (api_key model : Str) (p : Payload) (a : Analysis)
    (oracle : List Payload → Str → Option Analysis)
    (cache : List CacheEntry) (t : Nat)
    (hkey : api_key ≠ []) (hmodel : model ∈ SUPPORTED_LLM_MODELS)
    (hhit : cacheGet cache t (_cache_key model p) = some a) :
    analyze_payloads api_key model [p] oracle cache t =
      Except.ok ([(p.pid, a)], cache, 0) := by
  simp only [analyze_payloads]
  rw [if_neg (by simp), if_neg (not_not_intro hmodel), if_neg hkey]
  simp only [List.foldl_cons, List.foldl_nil, hhit]
  simp [_chunk, chunkFuel, _MAX_BATCH_SIZE, dictSet]

/-- C7: two successive `analyze_payloads` invocations with the same
model and payloads that agree on the cache-key fields (sender, subject,
body hash, sorted attachments, sorted URLs) make exactly one external
call in total — the first computes and caches, the second is served from
the cache with zero calls while the TTL has not elapsed — and once the
configured TTL has elapsed a third identical invocation makes exactly
one additional external call. -/
theorem c7_cache_ttl
    (api_key model : Str) (p q r : Payload) (a b : Analysis)
    (oracle : List Payload → Str → Option Analysis)
    (cache0 : List CacheEntry) (t1 t2 t3 : Nat)
    (hkey : api_key ≠ [])
    (hmodel : model ∈ SUPPORTED_LLM_MODELS)
    (hq : _cache_key model q = _cache_key model p)
    (hr : _cache_key model r = _cache_key model p)
    (hmiss : cacheGet cache0 t1 (_cache_key model p) = none)
    (ha : oracle [p] p.pid = some a)
    (hb : oracle [r] r.pid = some b)
    (ht2 : t2 < t1 + _CACHE_TTL_SECONDS)
    (ht3 : t1 + _CACHE_TTL_SECONDS ≤ t3) :
    analyze_payloads api_key model [p] oracle cache0 t1 =
      Except.ok ([(p.pid, a)], cacheSet cache0 t1 (_cache_key model p) a, 1) ∧
    analyze_payloads api_key model [q] oracle
        (cacheSet cache0 t1 (_cache_key model p) a) t2 =
      Except.ok ([(q.pid, a)], cacheSet cache0 t1 (_cache_key model p) a, 0) ∧
    analyze_payloads api_key model [r] oracle
        (cacheSet cache0 t1 (_cache_key model p) a) t3 =
      Except.ok ([(r.pid, b)],
        cacheSet (cacheSet cache0 t1 (_cache_key model p) a) t3
          (_cache_key model r) b, 1) := by
  refine ⟨analyze_single_miss api_key model p a oracle cache0 t1 hkey hmodel hmiss ha,
    ?_, ?_⟩
  · exact analyze_single_hit api_key model q a oracle _ t2 hkey hmodel
      (by rw [hq]; exact cacheGet_set_hit cache0 t1 t2 _ a ht2)
  · exact analyze_single_miss api_key model r b oracle _ t3 hkey hmodel
      (by rw [hr]; exact cacheGet_set_expired cache0 t1 t3 _ a ht3) hb

/-- C7: two successive `analyze_payloads` invocations with the same
model and payloads that agree on the cache-key fields (sender, subject,
body hash, sorted attachments, sorted URLs) make exactly one external
call in total — the first computes and caches, the second is served from
the cache with zero calls while the TTL has not elapsed — and once the
configured TTL has elapsed a third identical invocation makes exactly
one additional external call. -/
theorem c7_cache_ttl_witness :
    analyze_payloads ("test-key".toList) ("gpt-5-nano".toList) [payloadC7]
        oracleC7 [] 0 =
      Except.ok ([(payloadC7.pid, analysisC7)],
        cacheSet [] 0 (_cache_key ("gpt-5-nano".toList) payloadC7) analysisC7, 1) ∧
    analyze_payloads ("test-key".toList) ("gpt-5-nano".toList) [payloadC7]
        oracleC7 (cacheSet [] 0 (_cache_key ("gpt-5-nano".toList) payloadC7)
          analysisC7) 100 =
      Except.ok ([(payloadC7.pid, analysisC7)],
        cacheSet [] 0 (_cache_key ("gpt-5-nano".toList) payloadC7) analysisC7, 0) ∧
    analyze_payloads ("test-key".toList) ("gpt-5-nano".toList) [payloadC7]
        oracleC7 (cacheSet [] 0 (_cache_key ("gpt-5-nano".toList) payloadC7)
          analysisC7) 900 =
      Except.ok ([(payloadC7.pid, analysisC7)],
        cacheSet (cacheSet [] 0 (_cache_key ("gpt-5-nano".toList) payloadC7)
          analysisC7) 900 (_cache_key ("gpt-5-nano".toList) payloadC7)
          analysisC7, 1) :=
  c7_cache_ttl ("test-key".toList) ("gpt-5-nano".toList) payloadC7 payloadC7
    payloadC7 analysisC7 analysisC7 oracleC7 [] 0 100 900
    (by decide) (by decide) rfl rfl rfl rfl rfl (by decide) (by decide)
